import Mathlib

/-
Verification development for the IncrediPool multiplayer server
(src/server.js).  The server keeps one global mutable `gameState`
(players map, current cue holder, balls state, simulation flag,
chat history, simulation watchdog timer, shot player id, score map)
and mutates it from socket event handlers plus a periodic timeout
sweep.  Each handler below is a Lean function
`GameState → inputs → GameState × List Ev` translated directly from
the corresponding `socket.on(...)` handler; `Ev` records the outbound
`emit` calls in program order.  Times are `Nat` milliseconds (JS
`Date.now()`); within one handler every `Date.now()` call is modelled
as the single instant `now` at which the handler runs.  JS `Map`s are
modelled as insertion-ordered association lists with unique keys.
-/

namespace IncrediPool

/-- Opaque client-supplied balls payload.  `empty` models the literal
`{}` the server writes on reset; `blob n` is an arbitrary client blob. -/
inductive Payload where
  | empty : Payload
  | blob (n : Nat) : Payload
deriving DecidableEq, Repr

/-- One entry of `gameState.players` (the key, the player id, is the
association-list key).  `socket`/`socketId` collapse to the numeric
transport key `socketId`; the live socket handle itself stays outside
the model (its `connected` flag is treated as true for live sessions,
which removal keeps in sync). -/
structure Player where
  socketId : Nat
  isHoldingCue : Bool
  lastHeartbeat : Nat
  lastChatTime : Nat
deriving DecidableEq, Repr

/-- A chat history entry.  The source also stores a random-suffixed
numeric `id`; only its uniqueness matters and it is not modelled. -/
structure ChatMsg where
  kind : String
  sender : String
  content : String
  timestamp : Nat
deriving DecidableEq, Repr

/-- One element of a `ballsPocketed` report. -/
structure PocketInfo where
  ballNumber : Int
  pocketType : String
deriving DecidableEq, Repr

/-- Outbound messages, in the order the handlers emit them.
`toSock`/`exceptSock` record `socket.emit` targets resp.
`socket.broadcast.emit` exclusions; constructors without a socket
field are `ioServer.emit` broadcasts to everyone. -/
inductive Ev where
  | joinGameResponse (toSock : Nat) (success : Bool) (message : String)
  | chatHistoryReplay (toSock : Nat) (history : List ChatMsg)
  | chatMessageEv (msg : ChatMsg)
  | chatError (toSock : Nat) (message : String)
  | errorEv (toSock : Nat) (message : String)
  | heartbeatResponse (toSock : Nat) (timestamp : Nat)
  | pongEv (toSock : Nat) (data : Nat)
  | playerList (roster : List (String × Bool × Bool))
  | gameStateFull (currentPlayer : Option String) (ballsState : Payload)
  | gameStateCue (currentPlayer : Option String)
  | gameStateReady (currentPlayer : Option String)
  | cueStateChanged (playerId : String) (isHolding : Bool)
  | forceReleaseCue (toSock : Nat)
  | shotStartEv (playerId : String) (ballsState : Payload) (shotData : Nat) (startTime : Nat)
  | simulationEnd (playerId : String)
  | syncConfirm (playerId : String) (authoritativeState : Payload)
  | simulationCompleteRelay (exceptSock : Nat) (playerId : String) (finalState : Payload)
  | ballsUpdate (exceptSock : Nat) (playerId : String) (state : Payload)
  | ballHitRelay (exceptSock : Nat) (playerId : String)
  | resetTableEv (playerId : String)
  | scoresCleared (clearedBy : String)
  | playerScored (playerId : String) (ballNumber : Int) (pocketType : String) (timestamp : Nat)
  | playerScoreRemoved (playerId : String) (reason : String)
  | scoreboardEv (toSock : Nat) (scores : List (String × List Int × Nat))
deriving DecidableEq, Repr

/-- The global `gameState` object plus the two pending `setTimeout`
handles the handlers create.  A `simulationTimer` value `some pid`
means the 6-second shot watchdog armed for shooter `pid` is pending;
`settleTimer` likewise models the 100 ms post-reset settle callback.
Firing or `clearTimeout` consumes/cancels the pending callback. -/
structure GameState where
  players : List (String × Player)
  currentPlayer : Option String
  ballsState : Payload
  isSimulating : Bool
  chatHistory : List ChatMsg
  simulationTimer : Option String
  shotPlayerId : Option String
  playerScores : List (String × List Int)
  settleTimer : Option String
deriving DecidableEq, Repr

/-- GAME_CONFIG.HEARTBEAT_INTERVAL (30s sweep period). -/
def HEARTBEAT_INTERVAL : Nat := 30000

/-- GAME_CONFIG.PLAYER_TIMEOUT (60s participant staleness). -/
def PLAYER_TIMEOUT : Nat := 60000

/-- GAME_CONFIG.CUE_TIMEOUT (120s cue-hold staleness). -/
def CUE_TIMEOUT : Nat := 120000

/-- GAME_CONFIG.MAX_CHAT_HISTORY. -/
def MAX_CHAT_HISTORY : Nat := 100

/-- GAME_CONFIG.MAX_MESSAGE_LENGTH. -/
def MAX_MESSAGE_LENGTH : Nat := 200

/-- GAME_CONFIG.CHAT_RATE_LIMIT (5s between chats). -/
def CHAT_RATE_LIMIT : Nat := 5000

/-- JS `Map.get`: first (and, keys being unique, only) binding. -/
def jsGet (m : List (String × α)) (k : String) : Option α :=
  match m with
  | [] => none
  | (k1, v) :: r => if k1 = k then some v else jsGet r k

/-- In-place mutation of the value object bound to key `k`
(JS object mutation through the map reference). -/
def jsUpdate (m : List (String × α)) (k : String) (f : α → α) : List (String × α) :=
  match m with
  | [] => []
  | (k1, v) :: r =>
    if k1 = k then (k1, f v) :: jsUpdate r k f else (k1, v) :: jsUpdate r k f

/-- JS `Map.delete`. -/
def jsDelete (m : List (String × α)) (k : String) : List (String × α) :=
  match m with
  | [] => []
  | (k1, v) :: r => if k1 = k then jsDelete r k else (k1, v) :: jsDelete r k

/-- Insertion-ordered key list of a map. -/
def keysOf (m : List (String × α)) : List String :=
  m.map (fun pr => pr.1)

/-- createSystemMessage. -/
def createSystemMessage (now : Nat) (content kind : String) : ChatMsg :=
  { kind := kind, sender := "System", content := content, timestamp := now }

/-- createPlayerMessage. -/
def createPlayerMessage (now : Nat) (playerId content : String) : ChatMsg :=
  { kind := "player", sender := playerId, content := content, timestamp := now }

/-- addMessageToHistory: push, then keep only the last
MAX_CHAT_HISTORY entries (`slice(-MAX_CHAT_HISTORY)`). -/
def addMessageToHistory (h : List ChatMsg) (m : ChatMsg) : List ChatMsg :=
  let h2 := h ++ [m]
  if h2.length > MAX_CHAT_HISTORY then h2.drop (h2.length - MAX_CHAT_HISTORY) else h2

/-- broadcastChatMessage: append to history and emit to everyone. -/
def broadcastChatMessage (s : GameState) (m : ChatMsg) : GameState × Ev :=
  ({ s with chatHistory := addMessageToHistory s.chatHistory m }, Ev.chatMessageEv m)

/-- sendSystemMessage. -/
def sendSystemMessage (s : GameState) (now : Nat) (content kind : String) : GameState × Ev :=
  broadcastChatMessage s (createSystemMessage now content kind)

/-- Drop leading JS-whitespace characters. -/
def dropLeadingSpaces : List Char → List Char
  | [] => []
  | c :: r => if c.isWhitespace then dropLeadingSpaces r else c :: r

/-- JS `String.prototype.trim()` (ASCII whitespace; structurally
recursive so that proofs can evaluate it). -/
def jsTrim (s : String) : String :=
  String.mk (dropLeadingSpaces (dropLeadingSpaces s.data.reverse).reverse)

/-- JS `String.prototype.toLowerCase()` (per-character lowering). -/
def jsToLower (s : String) : String :=
  String.mk (s.data.map Char.toLower)

/-- The forbidden-word list of validateMessage. -/
def forbiddenWords : List String :=
  ["fuck", "shit", "bitch", "傻逼", "白痴", "垃圾"]

/-- validateMessage: trims, bounds the length, filters content;
returns the trimmed content on success, the rejection reason on error. -/
def validateMessage (content : String) : Except String String :=
  if content = "" then Except.error ("消息内容不能为空")
  else
    let trimmed := jsTrim content
    if trimmed.length = 0 then Except.error ("消息内容不能为空")
    else if trimmed.length > MAX_MESSAGE_LENGTH then
      Except.error ("消息长度不能超过" ++ toString MAX_MESSAGE_LENGTH ++ "个字符")
    else if forbiddenWords.any (fun w => decide (w.data <:+: (jsToLower trimmed).data)) then
      Except.error ("消息包含不当内容")
    else Except.ok trimmed

/-- broadcastPlayerList: roster of (id, isHoldingCue, isOnline). -/
def broadcastPlayerList (s : GameState) (now : Nat) : Ev :=
  Ev.playerList (s.players.map
    (fun pr => (pr.1, pr.2.isHoldingCue, decide (now - pr.2.lastHeartbeat < PLAYER_TIMEOUT))))

/-- broadcastGameState: the {currentPlayer, ballsState} snapshot. -/
def broadcastGameState (s : GameState) : Ev :=
  Ev.gameStateFull s.currentPlayer s.ballsState

/-- removePlayer(playerId, reason): leave notice, cue release cascade,
score removal cascade (notice only when other players are present at
check time, i.e. before the map deletion), deletion, roster and game
state broadcasts.  No-op when the id is not a live player. -/
def removePlayer (s : GameState) (now : Nat) (pid reason : String) : GameState × List Ev :=
  match jsGet s.players pid with
  | none => (s, [])
  | some _ =>
    let sm1 := sendSystemMessage s now (pid ++ " 离开了游戏") ("info")
    let s1 := sm1.1
    let cueStep :=
      if s1.currentPlayer = some pid then
        let s2a := { s1 with currentPlayer := none }
        let sm2 := sendSystemMessage s2a now (pid ++ " 的球杆已被释放") ("info")
        (sm2.1, [Ev.cueStateChanged pid false, Ev.gameStateCue none, sm2.2])
      else (s1, ([] : List Ev))
    let s2 := cueStep.1
    let scoreStep :=
      match jsGet s2.playerScores pid with
      | some _ =>
        let s3a := { s2 with playerScores := jsDelete s2.playerScores pid }
        if s2.players.length > 1 then (s3a, [Ev.playerScoreRemoved pid reason])
        else (s3a, ([] : List Ev))
      | none => (s2, ([] : List Ev))
    let s3 := scoreStep.1
    let s4 := { s3 with players := jsDelete s3.players pid }
    (s4, [sm1.2] ++ cueStep.2 ++ scoreStep.2
          ++ [broadcastPlayerList s4 now, broadcastGameState s4])

/-- Accumulator of the first loop of checkPlayerTimeouts. -/
structure SweepAcc where
  st : GameState
  evs : List Ev
  toRemove : List String

/-- One iteration of the `for (const [playerId, player] of entries)`
loop of checkPlayerTimeouts: stale players are queued for removal;
otherwise the current cue holder is force-released when its heartbeat
age exceeds CUE_TIMEOUT.  The player object is re-read from the live
state because earlier iterations may have mutated it. -/
def sweepStep (now : Nat) (acc : SweepAcc) (pid : String) : SweepAcc :=
  match jsGet acc.st.players pid with
  | none => acc
  | some player =>
    let t := now - player.lastHeartbeat
    if t > PLAYER_TIMEOUT then
      { acc with toRemove := acc.toRemove ++ [pid] }
    else if player.isHoldingCue = true ∧ acc.st.currentPlayer = some pid then
      if t > CUE_TIMEOUT then
        let s1 := { acc.st with
          currentPlayer := none,
          players := jsUpdate acc.st.players pid
            (fun p => { p with isHoldingCue := false }) }
        { st := s1,
          evs := acc.evs ++
            [Ev.forceReleaseCue player.socketId, Ev.cueStateChanged pid false,
             Ev.gameStateCue none, broadcastPlayerList s1 now],
          toRemove := acc.toRemove }
      else acc
    else acc

/-- checkPlayerTimeouts: scan every player (collecting stale ids and
force-releasing an over-held cue), then remove the collected ids. -/
def checkPlayerTimeouts (s : GameState) (now : Nat) : GameState × List Ev :=
  let ids := keysOf s.players
  let acc := ids.foldl (sweepStep now) { st := s, evs := [], toRemove := [] }
  acc.toRemove.foldl
    (fun pr pid =>
      let r := removePlayer pr.1 now pid ("超时断开")
      (r.1, pr.2 ++ r.2))
    (acc.st, acc.evs)

/-- socket.on joinGame. -/
def joinGame (s : GameState) (sock now : Nat) (pid : String) : GameState × List Ev :=
  if (jsTrim pid).length = 0 then
    (s, [Ev.joinGameResponse sock false ("玩家ID不能为空")])
  else if pid.length > 20 then
    (s, [Ev.joinGameResponse sock false ("玩家ID不能超过20个字符")])
  else
    match jsGet s.players pid with
    | some _ =>
      (s, [Ev.joinGameResponse sock false
            ("玩家ID \"" ++ pid ++ "\" 已被使用，请换一个ID")])
    | none =>
      let newPlayer : Player :=
        { socketId := sock, isHoldingCue := false, lastHeartbeat := now, lastChatTime := 0 }
      let s1 := { s with players := s.players ++ [(pid, newPlayer)] }
      let sm := sendSystemMessage s1 now (pid ++ " 加入了游戏") ("info")
      (sm.1,
       [Ev.joinGameResponse sock true ("欢迎 " ++ pid ++ " 加入游戏！"),
        Ev.chatHistoryReplay sock s1.chatHistory,
        broadcastPlayerList s1 now,
        Ev.gameStateFull s1.currentPlayer s1.ballsState,
        sm.2])

/-- Rate-limit rejection text with the remaining wait in seconds. -/
def rateLimitMessage (remainingTime : Nat) : String :=
  "发送消息过于频繁，请等待 " ++ toString remainingTime ++ " 秒"

/-- socket.on chatMessage.  `Math.ceil((LIMIT - delta) / 1000)` is
`(LIMIT - delta + 999) / 1000` on the nonnegative values the branch
sees. -/
def chatMessage (s : GameState) (sock now : Nat) (pid content : String) : GameState × List Ev :=
  match jsGet s.players pid with
  | none => (s, [Ev.chatError sock ("身份验证失败")])
  | some player =>
    if player.socketId = sock then
      if now - player.lastChatTime < CHAT_RATE_LIMIT then
        (s, [Ev.chatError sock
              (rateLimitMessage ((CHAT_RATE_LIMIT - (now - player.lastChatTime) + 999) / 1000))])
      else
        match validateMessage content with
        | Except.error reason => (s, [Ev.chatError sock reason])
        | Except.ok trimmed =>
          let pl2 := jsUpdate s.players pid
            (fun p => { p with lastChatTime := now, lastHeartbeat := now })
          let s1 := { s with players := pl2 }
          let bc := broadcastChatMessage s1 (createPlayerMessage now pid trimmed)
          (bc.1, [bc.2])
    else (s, [Ev.chatError sock ("身份验证失败")])

/-- socket.on heartbeat: refresh and acknowledge on a key match,
silently do nothing otherwise. -/
def heartbeat (s : GameState) (sock now : Nat) (pid : String) : GameState × List Ev :=
  match jsGet s.players pid with
  | none => (s, [])
  | some player =>
    if player.socketId = sock then
      let pl2 := jsUpdate s.players pid (fun p => { p with lastHeartbeat := now })
      ({ s with players := pl2 }, [Ev.heartbeatResponse sock now])
    else (s, [])

/-- socket.on ping. -/
def ping (s : GameState) (sock data : Nat) : GameState × List Ev :=
  (s, [Ev.pongEv sock data])

/-- socket.on takeCue. -/
def takeCue (s : GameState) (sock now : Nat) (pid : String) : GameState × List Ev :=
  match jsGet s.players pid with
  | none => (s, [Ev.errorEv sock ("玩家验证失败")])
  | some player =>
    if player.socketId = sock then
      match s.currentPlayer with
      | none =>
        let s1 := { s with
          currentPlayer := some pid,
          players := jsUpdate s.players pid
            (fun p => { p with isHoldingCue := true, lastHeartbeat := now }) }
        let sm := sendSystemMessage s1 now (pid ++ " 拿起了球杆") ("info")
        (sm.1,
         [sm.2, broadcastPlayerList sm.1 now, Ev.cueStateChanged pid true,
          Ev.gameStateCue sm.1.currentPlayer])
      | some _ => (s, [Ev.errorEv sock ("已有其他玩家持杆中")])
    else (s, [Ev.errorEv sock ("玩家验证失败")])

/-- socket.on releaseCue (silent no-op when not the holder). -/
def releaseCue (s : GameState) (sock now : Nat) (pid : String) : GameState × List Ev :=
  match jsGet s.players pid with
  | none => (s, [Ev.errorEv sock ("玩家验证失败")])
  | some player =>
    if player.socketId = sock then
      if s.currentPlayer = some pid then
        let s1 := { s with
          currentPlayer := none,
          players := jsUpdate s.players pid
            (fun p => { p with isHoldingCue := false, lastHeartbeat := now }) }
        let sm := sendSystemMessage s1 now (pid ++ " 放下了球杆") ("info")
        (sm.1,
         [sm.2, broadcastPlayerList sm.1 now, Ev.cueStateChanged pid false,
          Ev.gameStateCue none])
      else (s, [])
    else (s, [Ev.errorEv sock ("玩家验证失败")])

/-- socket.on shotStart.  The guard checks only identity and
holdership (`currentPlayer !== playerId`); `isSimulating` is NOT
consulted.  On success the previous watchdog (if any) is cleared and
a fresh 6s watchdog capturing `pid` is armed; the broadcast start
time is `now + 100`. -/
def shotStart (s : GameState) (sock now : Nat) (pid : String)
    (balls : Payload) (shotData : Nat) : GameState × List Ev :=
  match jsGet s.players pid with
  | none => (s, [Ev.errorEv sock ("无效的击球请求")])
  | some player =>
    if player.socketId = sock ∧ s.currentPlayer = some pid then
      let s1 := { s with
        isSimulating := true,
        ballsState := balls,
        shotPlayerId := some pid,
        players := jsUpdate s.players pid (fun p => { p with lastHeartbeat := now }),
        simulationTimer := some pid }
      let sm := sendSystemMessage s1 now (pid ++ " 击球了！") ("info")
      (sm.1, [Ev.shotStartEv pid balls shotData (now + 100), sm.2])
    else (s, [Ev.errorEv sock ("无效的击球请求")])

/-- The body of the 6-second watchdog `setTimeout` armed by shotStart,
with captured shooter `pid`; firing consumes the pending timer.  The
guard re-checks that the same shot is still simulating. -/
def watchdogFire (s : GameState) (now : Nat) (pid : String) : GameState × List Ev :=
  let s0 := { s with simulationTimer := none }
  if s0.isSimulating = true ∧ s0.shotPlayerId = some pid then
    let s1 := { s0 with isSimulating := false, shotPlayerId := none }
    let sm := sendSystemMessage s1 now (pid ++ " 的击球模拟完成") ("info")
    (sm.1, [Ev.simulationEnd pid, sm.2])
  else (s0, [])

/-- socket.on ballsState (legacy fallback sync). -/
def ballsStateUpdate (s : GameState) (sock now : Nat) (pid : String)
    (state : Payload) : GameState × List Ev :=
  match jsGet s.players pid with
  | none => (s, [])
  | some player =>
    if player.socketId = sock then
      ({ s with
          ballsState := state,
          players := jsUpdate s.players pid (fun p => { p with lastHeartbeat := now }) },
       [Ev.ballsUpdate sock pid state])
    else (s, [])

/-- socket.on ballHit (legacy fallback). -/
def ballHit (s : GameState) (sock now : Nat) (pid : String) : GameState × List Ev :=
  match jsGet s.players pid with
  | none => (s, [])
  | some player =>
    if player.socketId = sock ∧ s.currentPlayer = some pid then
      let s1 := { s with
        isSimulating := true,
        players := jsUpdate s.players pid (fun p => { p with lastHeartbeat := now }) }
      let sm := sendSystemMessage s1 now (pid ++ " 击球了！") ("info")
      (sm.1, [Ev.ballHitRelay sock pid, sm.2])
    else (s, [])

/-- socket.on simulationComplete: identity check only; on success set
isSimulating false and take the reported payload as authoritative.
The armed watchdog and shotPlayerId are left untouched. -/
def simulationComplete (s : GameState) (sock now : Nat) (pid : String)
    (finalState : Payload) : GameState × List Ev :=
  match jsGet s.players pid with
  | none => (s, [])
  | some player =>
    if player.socketId = sock then
      ({ s with
          isSimulating := false,
          ballsState := finalState,
          players := jsUpdate s.players pid (fun p => { p with lastHeartbeat := now }) },
       [Ev.syncConfirm pid finalState, Ev.simulationCompleteRelay sock pid finalState])
    else (s, [])

/-- socket.on resetTable: holder-only; stops the watchdog, wipes balls
state, simulation flags and every score entry, broadcasts, and arms
the 100 ms settle callback. -/
def resetTable (s : GameState) (sock now : Nat) (pid : String) : GameState × List Ev :=
  match jsGet s.players pid with
  | none => (s, [Ev.errorEv sock ("玩家验证失败")])
  | some player =>
    if player.socketId = sock then
      if s.currentPlayer = some pid then
        let s1 := { s with
          simulationTimer := none,
          ballsState := Payload.empty,
          isSimulating := false,
          shotPlayerId := none,
          players := jsUpdate s.players pid (fun p => { p with lastHeartbeat := now }),
          playerScores := [] }
        let sm := sendSystemMessage s1 now (pid ++ " 重置了台球桌") ("info")
        let s2 := { sm.1 with settleTimer := some pid }
        (s2, [Ev.resetTableEv pid, Ev.scoresCleared pid, sm.2])
      else (s, [Ev.errorEv sock ("只有持杆者才能重置球台")])
    else (s, [Ev.errorEv sock ("玩家验证失败")])

/-- The body of the 100 ms settle `setTimeout` armed by resetTable. -/
def settleFire (s : GameState) (now : Nat) (pid : String) : GameState × List Ev :=
  let s0 := { s with settleTimer := none }
  let sm := sendSystemMessage s0 now ("台球桌重置完成，" ++ pid ++ " 可以继续击球") ("info")
  (sm.1, [Ev.gameStateReady s0.currentPlayer, sm.2])

/-- The `pocketedBalls.forEach` body of the ballsPocketed handler:
skip the cue ball 0, skip ball numbers outside 1..15, ensure a score
entry exists, then record and broadcast only a not-yet-recorded ball. -/
def processPocket (now : Nat) (pid : String) (acc : GameState × List Ev)
    (info : PocketInfo) : GameState × List Ev :=
  let s := acc.1
  if info.ballNumber = 0 then acc
  else if info.ballNumber < 1 ∨ 15 < info.ballNumber then acc
  else
    let s0 :=
      match jsGet s.playerScores pid with
      | none => { s with playerScores := s.playerScores ++ [(pid, [])] }
      | some _ => s
    match jsGet s0.playerScores pid with
    | none => (s0, acc.2)
    | some scoreList =>
      if info.ballNumber ∈ scoreList then (s0, acc.2)
      else
        let scores2 := jsUpdate s0.playerScores pid (fun l => l ++ [info.ballNumber])
        let s1 := { s0 with playerScores := scores2 }
        let sm := sendSystemMessage s1 now
          ("🎯 " ++ pid ++ " 打进了 " ++ toString info.ballNumber ++ " 号球！") ("info")
        (sm.1, acc.2 ++ [Ev.playerScored pid info.ballNumber info.pocketType now, sm.2])

/-- socket.on ballsPocketed: identity check, then only the current
holder or the active shot player may report; each reported ball is
processed in order and the reporter's heartbeat is refreshed. -/
def ballsPocketed (s : GameState) (sock now : Nat) (pid : String)
    (infos : List PocketInfo) : GameState × List Ev :=
  match jsGet s.players pid with
  | none => (s, [Ev.errorEv sock ("玩家验证失败")])
  | some player =>
    if player.socketId = sock then
      if s.currentPlayer = some pid ∨ s.shotPlayerId = some pid then
        let r := infos.foldl (processPocket now pid) (s, [])
        let pl2 := jsUpdate r.1.players pid (fun p => { p with lastHeartbeat := now })
        ({ r.1 with players := pl2 }, r.2)
      else (s, [])
    else (s, [Ev.errorEv sock ("玩家验证失败")])

/-- socket.on clearScores: holder-only wholesale clear. -/
def clearScores (s : GameState) (sock now : Nat) (pid : String) : GameState × List Ev :=
  match jsGet s.players pid with
  | none => (s, [Ev.errorEv sock ("玩家验证失败")])
  | some player =>
    if player.socketId = sock then
      if s.currentPlayer = some pid then
        let s1 := { s with playerScores := [] }
        let sm := sendSystemMessage s1 now ("🧹 " ++ pid ++ " 清除了所有得分记录") ("info")
        let pl2 := jsUpdate sm.1.players pid (fun p => { p with lastHeartbeat := now })
        ({ sm.1 with players := pl2 }, [Ev.scoresCleared pid, sm.2])
      else (s, [Ev.errorEv sock ("只有持杆者才能清除得分记录")])
    else (s, [Ev.errorEv sock ("玩家验证失败")])

/-- Stable descending insertion by total score (JS stable sort with
comparator `b.totalScore - a.totalScore`). -/
def insertByScore (x : String × List Int × Nat) :
    List (String × List Int × Nat) → List (String × List Int × Nat)
  | [] => [x]
  | y :: r => if y.2.2 < x.2.2 then x :: y :: r else y :: insertByScore x r

/-- Sort a scoreboard descending by total score. -/
def sortByScore : List (String × List Int × Nat) → List (String × List Int × Nat)
  | [] => []
  | x :: r => insertByScore x (sortByScore r)

/-- socket.on getScores (read-only scoreboard reply to the caller). -/
def getScores (s : GameState) (sock : Nat) (pid : String) : GameState × List Ev :=
  match jsGet s.players pid with
  | none => (s, [])
  | some player =>
    if player.socketId = sock then
      (s, [Ev.scoreboardEv sock
            (sortByScore (s.playerScores.map (fun pr => (pr.1, pr.2, pr.2.length))))])
    else (s, [])

/-- socket.on disconnect: tear down the first player owning the
disconnected socket. -/
def handleDisconnect (s : GameState) (sock now : Nat) : GameState × List Ev :=
  match s.players.find? (fun pr => pr.2.socketId == sock) with
  | some pr => removePlayer s now pr.1 ("断开连接")
  | none => (s, [])

/-- The freshly started server state. -/
def initialState : GameState :=
  { players := [], currentPlayer := none, ballsState := Payload.empty,
    isSimulating := false, chatHistory := [], simulationTimer := none,
    shotPlayerId := none, playerScores := [], settleTimer := none }

/-- Cue-lock coherence on the raw data: every session flagged as
holding the cue is named by `currentPlayer`, and map keys are unique. -/
def GoodCore (m : List (String × Player)) (cp : Option String) : Prop :=
  (∀ pr ∈ m, pr.2.isHoldingCue = true → cp = some pr.1) ∧ (keysOf m).Nodup

/-- Cue-lock coherence of a whole game state. -/
def Good (s : GameState) : Prop :=
  GoodCore s.players s.currentPlayer

/-- One serialized server event: any socket handler invocation with
arbitrary inputs, or one of the scheduled callbacks (a pending
watchdog or settle timer firing, the periodic timeout sweep). -/
inductive Step : GameState → GameState → Prop where
  | join : ∀ (s : GameState) (sock now : Nat) (pid : String),
      Step s (joinGame s sock now pid).1
  | chat : ∀ (s : GameState) (sock now : Nat) (pid content : String),
      Step s (chatMessage s sock now pid content).1
  | hb : ∀ (s : GameState) (sock now : Nat) (pid : String),
      Step s (heartbeat s sock now pid).1
  | pingStep : ∀ (s : GameState) (sock d : Nat), Step s (ping s sock d).1
  | take : ∀ (s : GameState) (sock now : Nat) (pid : String),
      Step s (takeCue s sock now pid).1
  | release : ∀ (s : GameState) (sock now : Nat) (pid : String),
      Step s (releaseCue s sock now pid).1
  | shot : ∀ (s : GameState) (sock now : Nat) (pid : String) (balls : Payload) (sd : Nat),
      Step s (shotStart s sock now pid balls sd).1
  | watchdog : ∀ (s : GameState) (now : Nat) (pid : String),
      s.simulationTimer = some pid → Step s (watchdogFire s now pid).1
  | ballsSync : ∀ (s : GameState) (sock now : Nat) (pid : String) (st : Payload),
      Step s (ballsStateUpdate s sock now pid st).1
  | hit : ∀ (s : GameState) (sock now : Nat) (pid : String),
      Step s (ballHit s sock now pid).1
  | simComplete : ∀ (s : GameState) (sock now : Nat) (pid : String) (fs : Payload),
      Step s (simulationComplete s sock now pid fs).1
  | reset : ∀ (s : GameState) (sock now : Nat) (pid : String),
      Step s (resetTable s sock now pid).1
  | settle : ∀ (s : GameState) (now : Nat) (pid : String),
      s.settleTimer = some pid → Step s (settleFire s now pid).1
  | pocketed : ∀ (s : GameState) (sock now : Nat) (pid : String) (infos : List PocketInfo),
      Step s (ballsPocketed s sock now pid infos).1
  | clear : ∀ (s : GameState) (sock now : Nat) (pid : String),
      Step s (clearScores s sock now pid).1
  | board : ∀ (s : GameState) (sock : Nat) (pid : String),
      Step s (getScores s sock pid).1
  | disconnect : ∀ (s : GameState) (sock now : Nat),
      Step s (handleDisconnect s sock now).1
  | teardown : ∀ (s : GameState) (now : Nat) (pid reason : String),
      Step s (removePlayer s now pid reason).1
  | sweep : ∀ (s : GameState) (now : Nat), Step s (checkPlayerTimeouts s now).1

/-- States reachable from server start by any interleaving of events. -/
inductive Reachable : GameState → Prop where
  | init : Reachable initialState
  | step : ∀ {s s2 : GameState}, Reachable s → Step s s2 → Reachable s2

/-- The score list currently recorded for `pid` (empty when absent). -/
def scoreOf (s : GameState) (pid : String) : List Int :=
  (jsGet s.playerScores pid).getD []

/-- Pure recording discipline of the ballsPocketed loop on one score
list: append each in-range, not-yet-present ball in report order. -/
def recordBalls (old : List Int) (bns : List Int) : List Int :=
  bns.foldl (fun acc bn => if 1 ≤ bn ∧ bn ≤ 15 ∧ bn ∉ acc then acc ++ [bn] else acc) old

/-- How many playerScored broadcasts for player `pid` and ball `n`
an event list carries. -/
def countScored (evs : List Ev) (pid : String) (n : Int) : Nat :=
  (evs.filter (fun e =>
    match e with
    | Ev.playerScored q bn _ _ => decide (q = pid ∧ bn = n)
    | _ => false)).length

/-- Recognizer for forceReleaseCue events. -/
def isForceRelease : Ev → Bool := fun e =>
  match e with
  | Ev.forceReleaseCue _ => true
  | _ => false

/-- Recognizer for error events. -/
def isErrorEv : Ev → Bool := fun e =>
  match e with
  | Ev.errorEv _ _ => true
  | _ => false

/-- Recognizer for shotStart broadcasts. -/
def isShotStartEv : Ev → Bool := fun e =>
  match e with
  | Ev.shotStartEv _ _ _ _ => true
  | _ => false

/-- Recognizer for playerScoreRemoved broadcasts. -/
def isScoreRemovedEv : Ev → Bool := fun e =>
  match e with
  | Ev.playerScoreRemoved _ _ => true
  | _ => false

/-- Demo run: P1 joins at t=0 on socket 1. -/
def demoJoin1 : GameState := (joinGame initialState 1 0 ("P1")).1

/-- Demo run: P1 then takes the cue at t=5. -/
def demoTake : GameState := (takeCue demoJoin1 1 5 ("P1")).1

/-- Demo run: holder P1 starts a shot at t=10 (now simulating, the
watchdog is armed). -/
def demoShot : GameState := (shotStart demoTake 1 10 ("P1") (Payload.blob 1) 7).1

/-- Demo run: P2 joins on socket 2 while P1 holds the cue. -/
def demoJoin2 : GameState := (joinGame demoTake 2 6 ("P2")).1

/-- Demo run: holder P1 reports ball 3 pocketed, so P1 owns a score
entry while P2 is also live. -/
def demoScored : GameState :=
  (ballsPocketed demoJoin2 1 7 ("P1") [{ ballNumber := 3, pocketType := "corner" }]).1

/-- Demo run: P1 has an accepted chat at t=6000. -/
def demoChatted : GameState :=
  (chatMessage demoJoin1 1 6000 ("P1") ("hello")).1

/-- A cue holder whose heartbeat is 130 s old at sweep time: its
heartbeat age exceeds CUE_TIMEOUT, while the spec intends the session
itself to survive and only the cue to be force-released. -/
def staleHolderState : GameState :=
  { initialState with
    players := [(("P1"), { socketId := 1, isHoldingCue := true,
                           lastHeartbeat := 0, lastChatTime := 0 })],
    currentPlayer := some ("P1") }

end IncrediPool

namespace IncrediPool

theorem jsGet_mem {α : Type} {m : List (String × α)} {k : String} {v : α}
    (h : jsGet m k = some v) : (k, v) ∈ m := by
  induction m with
  | nil => simp [jsGet] at h
  | cons a r ih =>
    obtain ⟨k1, v1⟩ := a
    by_cases hk : k1 = k
    · subst hk
      simp [jsGet] at h
      simp [h]
    · simp [jsGet, hk] at h
      exact List.mem_cons_of_mem _ (ih h)

theorem jsGet_eq_none_iff {α : Type} {m : List (String × α)} {k : String} :
    jsGet m k = none ↔ k ∉ keysOf m := by
  induction m with
  | nil => simp [jsGet, keysOf]
  | cons a r ih =>
    obtain ⟨k1, v1⟩ := a
    by_cases hk : k1 = k
    · subst hk
      simp [jsGet, keysOf]
    · simp [jsGet, keysOf, hk, Ne.symm hk] at *
      exact ih

theorem mem_jsUpdate {α : Type} {m : List (String × α)} {k : String} {f : α → α}
    {pr : String × α} (h : pr ∈ jsUpdate m k f) :
    (∃ v, (k, v) ∈ m ∧ pr = (k, f v)) ∨ (pr ∈ m ∧ pr.1 ≠ k) := by
  induction m with
  | nil => simp [jsUpdate] at h
  | cons a r ih =>
    obtain ⟨k1, v1⟩ := a
    by_cases hk : k1 = k
    · subst hk
      simp [jsUpdate] at h
      rcases h with h | h
      · exact Or.inl ⟨v1, by simp, h⟩
      · rcases ih h with ⟨v, hv, he⟩ | ⟨hm, hne⟩
        · exact Or.inl ⟨v, List.mem_cons_of_mem _ hv, he⟩
        · exact Or.inr ⟨List.mem_cons_of_mem _ hm, hne⟩
    · simp [jsUpdate, hk] at h
      rcases h with h | h
      · subst h
        exact Or.inr ⟨by simp, hk⟩
      · rcases ih h with ⟨v, hv, he⟩ | ⟨hm, hne⟩
        · exact Or.inl ⟨v, List.mem_cons_of_mem _ hv, he⟩
        · exact Or.inr ⟨List.mem_cons_of_mem _ hm, hne⟩

theorem keysOf_jsUpdate {α : Type} (m : List (String × α)) (k : String) (f : α → α) :
    keysOf (jsUpdate m k f) = keysOf m := by
  induction m with
  | nil => simp [jsUpdate]
  | cons a r ih =>
    obtain ⟨k1, v1⟩ := a
    by_cases hk : k1 = k
    · simp [jsUpdate, hk, keysOf] at *
      exact ih
    · simp [jsUpdate, hk, keysOf] at *
      exact ih

theorem mem_jsDelete {α : Type} {m : List (String × α)} {k : String}
    {pr : String × α} : pr ∈ jsDelete m k ↔ pr ∈ m ∧ pr.1 ≠ k := by
  induction m with
  | nil => simp [jsDelete]
  | cons a r ih =>
    obtain ⟨k1, v1⟩ := a
    by_cases hk : k1 = k
    · subst hk
      have hd : jsDelete ((k1, v1) :: r) k1 = jsDelete r k1 := by
        simp [jsDelete]
      rw [hd, ih]
      constructor
      · rintro ⟨hm, hne⟩
        exact ⟨List.mem_cons_of_mem _ hm, hne⟩
      · rintro ⟨hm, hne⟩
        rcases List.mem_cons.mp hm with he | hm2
        · exfalso
          apply hne
          rw [he]
        · exact ⟨hm2, hne⟩
    · simp [jsDelete, hk, ih]
      constructor
      · rintro (he | ⟨hm, hne⟩)
        · subst he
          simpa using hk
        · exact ⟨Or.inr hm, hne⟩
      · rintro ⟨he | hm, hne⟩
        · exact Or.inl he
        · exact Or.inr ⟨hm, hne⟩

theorem keysOf_jsDelete_sub {α : Type} {m : List (String × α)} {k q : String}
    (h : q ∈ keysOf (jsDelete m k)) : q ∈ keysOf m := by
  simp only [keysOf, List.mem_map] at h ⊢
  obtain ⟨pr, hpr, he⟩ := h
  exact ⟨pr, (mem_jsDelete.mp hpr).1, he⟩

theorem nodup_keysOf_jsDelete {α : Type} {m : List (String × α)} {k : String}
    (h : (keysOf m).Nodup) : (keysOf (jsDelete m k)).Nodup := by
  induction m with
  | nil => simp [jsDelete, keysOf]
  | cons a r ih =>
    obtain ⟨k1, v1⟩ := a
    simp only [keysOf, List.map_cons, List.nodup_cons] at h
    by_cases hk : k1 = k
    · simp only [jsDelete, if_pos hk]
      exact ih h.2
    · simp only [jsDelete, if_neg hk, keysOf, List.map_cons, List.nodup_cons]
      refine ⟨fun hmem => h.1 (keysOf_jsDelete_sub hmem), ih h.2⟩

theorem jsGet_jsUpdate {α : Type} (m : List (String × α)) (k q : String) (f : α → α) :
    jsGet (jsUpdate m k f) q = if q = k then Option.map f (jsGet m q) else jsGet m q := by
  induction m with
  | nil => simp [jsUpdate, jsGet]
  | cons a r ih =>
    obtain ⟨k1, v1⟩ := a
    by_cases hk : k1 = k
    · subst hk
      by_cases hq : k1 = q
      · subst hq
        simp [jsUpdate, jsGet]
      · simp [jsUpdate, jsGet, hq, ih]
    · by_cases hq : k1 = q
      · subst hq
        simp [jsUpdate, jsGet, hk]
      · simp [jsUpdate, jsGet, hk, hq, ih]

theorem jsGet_append_none {α : Type} {m : List (String × α)} {k : String}
    (h : jsGet m k = none) (m2 : List (String × α)) :
    jsGet (m ++ m2) k = jsGet m2 k := by
  induction m with
  | nil => simp
  | cons a r ih =>
    obtain ⟨k1, v1⟩ := a
    by_cases hk : k1 = k
    · simp [jsGet, hk] at h
    · simp [jsGet, hk] at h ⊢
      exact ih h

theorem jsGet_append_some {α : Type} {m : List (String × α)} {k : String} {v : α}
    (h : jsGet m k = some v) (m2 : List (String × α)) :
    jsGet (m ++ m2) k = some v := by
  induction m with
  | nil => simp [jsGet] at h
  | cons a r ih =>
    obtain ⟨k1, v1⟩ := a
    by_cases hk : k1 = k
    · simp [jsGet, hk] at h ⊢
      exact h
    · simp [jsGet, hk] at h ⊢
      exact ih h

theorem jsDelete_eq_self {α : Type} {m : List (String × α)} {k : String}
    (h : jsGet m k = none) : jsDelete m k = m := by
  induction m with
  | nil => simp [jsDelete]
  | cons a r ih =>
    obtain ⟨k1, v1⟩ := a
    by_cases hk : k1 = k
    · simp [jsGet, hk] at h
    · simp [jsGet, hk] at h
      simp [jsDelete, hk, ih h]

theorem jsGet_jsDelete_self {α : Type} (m : List (String × α)) (k : String) :
    jsGet (jsDelete m k) k = none := by
  induction m with
  | nil => simp [jsDelete, jsGet]
  | cons a r ih =>
    obtain ⟨k1, v1⟩ := a
    by_cases hk : k1 = k
    · simp [jsDelete, hk, ih]
    · simp [jsDelete, jsGet, hk, ih]

theorem mem_unique_of_nodup_keys {α : Type} {m : List (String × α)}
    (h : (keysOf m).Nodup) {pr1 pr2 : String × α}
    (h1 : pr1 ∈ m) (h2 : pr2 ∈ m) (hk : pr1.1 = pr2.1) : pr1 = pr2 := by
  induction m with
  | nil => simp at h1
  | cons a r ih =>
    simp only [keysOf, List.map_cons, List.nodup_cons] at h
    rcases List.mem_cons.mp h1 with he1 | hm1
    · rcases List.mem_cons.mp h2 with he2 | hm2
      · rw [he1, he2]
      · exfalso
        apply h.1
        rw [← he1, hk]
        exact List.mem_map_of_mem (fun pr => pr.1) hm2
    · rcases List.mem_cons.mp h2 with he2 | hm2
      · exfalso
        apply h.1
        rw [← he2, ← hk]
        exact List.mem_map_of_mem (fun pr => pr.1) hm1
      · exact ih h.2 hm1 hm2

end IncrediPool

namespace IncrediPool

theorem sendSystemMessage_fst (s : GameState) (now : Nat) (c k : String) :
    (sendSystemMessage s now c k).1 =
      { s with chatHistory := addMessageToHistory s.chatHistory (createSystemMessage now c k) } := rfl

theorem sendSystemMessage_snd (s : GameState) (now : Nat) (c k : String) :
    (sendSystemMessage s now c k).2 = Ev.chatMessageEv (createSystemMessage now c k) := rfl

theorem foldlPreserve {α β : Type} (P : β → Prop) (f : β → α → β)
    (h : ∀ b a, P b → P (f b a)) : ∀ (l : List α) (b : β), P b → P (l.foldl f b) := by
  intro l
  induction l with
  | nil =>
    intro b hb
    simpa using hb
  | cons a r ih =>
    intro b hb
    simp only [List.foldl_cons]
    exact ih _ (h b a hb)

theorem removePlayer_of_absent {s : GameState} {now : Nat} {pid reason : String}
    (h : jsGet s.players pid = none) : removePlayer s now pid reason = (s, []) := by
  simp [removePlayer, h]

theorem removePlayer_players {s : GameState} {now : Nat} {pid reason : String}
    {pl : Player} (h : jsGet s.players pid = some pl) :
    (removePlayer s now pid reason).1.players = jsDelete s.players pid := by
  by_cases hcp : s.currentPlayer = some pid <;>
    cases hsc : jsGet s.playerScores pid <;>
      by_cases hlen : s.players.length > 1 <;>
        simp [removePlayer, sendSystemMessage, broadcastChatMessage, h, hcp, hsc, hlen]

theorem removePlayer_currentPlayer {s : GameState} {now : Nat} {pid reason : String}
    {pl : Player} (h : jsGet s.players pid = some pl) :
    (removePlayer s now pid reason).1.currentPlayer =
      if s.currentPlayer = some pid then none else s.currentPlayer := by
  by_cases hcp : s.currentPlayer = some pid <;>
    cases hsc : jsGet s.playerScores pid <;>
      by_cases hlen : s.players.length > 1 <;>
        simp [removePlayer, sendSystemMessage, broadcastChatMessage, h, hcp, hsc, hlen]

theorem removePlayer_isSimulating (s : GameState) (now : Nat) (pid reason : String) :
    (removePlayer s now pid reason).1.isSimulating = s.isSimulating := by
  cases h : jsGet s.players pid <;>
    by_cases hcp : s.currentPlayer = some pid <;>
      cases hsc : jsGet s.playerScores pid <;>
        by_cases hlen : s.players.length > 1 <;>
          simp [removePlayer, sendSystemMessage, broadcastChatMessage, h, hcp, hsc, hlen]

theorem removePlayer_shotPlayerId (s : GameState) (now : Nat) (pid reason : String) :
    (removePlayer s now pid reason).1.shotPlayerId = s.shotPlayerId := by
  cases h : jsGet s.players pid <;>
    by_cases hcp : s.currentPlayer = some pid <;>
      cases hsc : jsGet s.playerScores pid <;>
        by_cases hlen : s.players.length > 1 <;>
          simp [removePlayer, sendSystemMessage, broadcastChatMessage, h, hcp, hsc, hlen]

theorem removePlayer_simulationTimer (s : GameState) (now : Nat) (pid reason : String) :
    (removePlayer s now pid reason).1.simulationTimer = s.simulationTimer := by
  cases h : jsGet s.players pid <;>
    by_cases hcp : s.currentPlayer = some pid <;>
      cases hsc : jsGet s.playerScores pid <;>
        by_cases hlen : s.players.length > 1 <;>
          simp [removePlayer, sendSystemMessage, broadcastChatMessage, h, hcp, hsc, hlen]

theorem removePlayer_playerScores {s : GameState} {now : Nat} {pid reason : String}
    {pl : Player} (h : jsGet s.players pid = some pl) :
    (removePlayer s now pid reason).1.playerScores = jsDelete s.playerScores pid := by
  by_cases hcp : s.currentPlayer = some pid <;>
    cases hsc : jsGet s.playerScores pid <;>
      by_cases hlen : s.players.length > 1 <;>
        simp [removePlayer, sendSystemMessage, broadcastChatMessage, h, hcp, hsc, hlen,
              jsDelete_eq_self]

theorem removePlayer_scoreRemoved_iff (s : GameState) (now : Nat) (pid reason : String) :
    (Ev.playerScoreRemoved pid reason ∈ (removePlayer s now pid reason).2) ↔
      ((jsGet s.players pid).isSome ∧ (jsGet s.playerScores pid).isSome
        ∧ s.players.length > 1) := by
  cases h : jsGet s.players pid <;>
    by_cases hcp : s.currentPlayer = some pid <;>
      cases hsc : jsGet s.playerScores pid <;>
        by_cases hlen : s.players.length > 1 <;>
          simp [removePlayer, sendSystemMessage, broadcastChatMessage, broadcastPlayerList,
                broadcastGameState, h, hcp, hsc, hlen]

theorem removePlayer_no_forceRelease (s : GameState) (now : Nat) (pid reason : String) :
    ((removePlayer s now pid reason).2.filter isForceRelease) = [] := by
  cases h : jsGet s.players pid <;>
    by_cases hcp : s.currentPlayer = some pid <;>
      cases hsc : jsGet s.playerScores pid <;>
        by_cases hlen : s.players.length > 1 <;>
          simp [removePlayer, sendSystemMessage, broadcastChatMessage, broadcastPlayerList,
                broadcastGameState, h, hcp, hsc, hlen, isForceRelease]

end IncrediPool

namespace IncrediPool

theorem goodCore_update_frame {m : List (String × Player)} {cp : Option String}
    {k : String} {f : Player → Player}
    (hf : ∀ p, (f p).isHoldingCue = p.isHoldingCue)
    (h : GoodCore m cp) : GoodCore (jsUpdate m k f) cp := by
  constructor
  · intro pr hpr hh
    rcases mem_jsUpdate hpr with ⟨v, hv, he⟩ | ⟨hm, _⟩
    · rw [he] at hh ⊢
      simp only [hf] at hh
      exact h.1 (k, v) hv hh
    · exact h.1 pr hm hh
  · rw [keysOf_jsUpdate]
    exact h.2

theorem goodCore_take {m : List (String × Player)} {k : String} {f : Player → Player}
    (h : GoodCore m none) : GoodCore (jsUpdate m k f) (some k) := by
  constructor
  · intro pr hpr hh
    rcases mem_jsUpdate hpr with ⟨v, _, he⟩ | ⟨hm, _⟩
    · rw [he]
    · exact absurd (h.1 pr hm hh) (by simp)
  · rw [keysOf_jsUpdate]
    exact h.2

theorem goodCore_release {m : List (String × Player)} {k : String} {f : Player → Player}
    (hf : ∀ p, (f p).isHoldingCue = false)
    (h : GoodCore m (some k)) : GoodCore (jsUpdate m k f) none := by
  constructor
  · intro pr hpr hh
    rcases mem_jsUpdate hpr with ⟨v, _, he⟩ | ⟨hm, hne⟩
    · rw [he] at hh
      rw [hf] at hh
      exact absurd hh (by simp)
    · have := h.1 pr hm hh
      exact absurd (Option.some_injective _ this).symm hne
  · rw [keysOf_jsUpdate]
    exact h.2

theorem goodCore_delete_keep {m : List (String × Player)} {cp : Option String}
    {k : String} (h : GoodCore m cp) : GoodCore (jsDelete m k) cp := by
  constructor
  · intro pr hpr hh
    exact h.1 pr (mem_jsDelete.mp hpr).1 hh
  · exact nodup_keysOf_jsDelete h.2

theorem goodCore_delete_release {m : List (String × Player)} {k : String}
    (h : GoodCore m (some k)) : GoodCore (jsDelete m k) none := by
  constructor
  · intro pr hpr hh
    obtain ⟨hm, hne⟩ := mem_jsDelete.mp hpr
    have := h.1 pr hm hh
    exact absurd (Option.some_injective _ this).symm hne
  · exact nodup_keysOf_jsDelete h.2

theorem goodCore_append_new {m : List (String × Player)} {cp : Option String}
    {k : String} {v : Player} (h : GoodCore m cp) (habs : jsGet m k = none)
    (hv : v.isHoldingCue = false) : GoodCore (m ++ [(k, v)]) cp := by
  constructor
  · intro pr hpr hh
    rcases List.mem_append.mp hpr with hm | hs
    · exact h.1 pr hm hh
    · simp at hs
      rw [hs] at hh
      rw [hv] at hh
      exact absurd hh (by simp)
  · have hk : k ∉ keysOf m := jsGet_eq_none_iff.mp habs
    have hkeys : keysOf (m ++ [(k, v)]) = keysOf m ++ [k] := by
      simp [keysOf]
    rw [hkeys, List.nodup_append]
    refine ⟨h.2, List.nodup_singleton k, ?_⟩
    intro q hq hq2
    simp at hq2
    rw [hq2] at hq
    exact hk hq

theorem good_joinGame {s : GameState} (sock now : Nat) (pid : String)
    (h : Good s) : Good (joinGame s sock now pid).1 := by
  by_cases h1 : (jsTrim pid).length = 0
  · simpa [joinGame, h1] using h
  · by_cases h2 : pid.length > 20
    · simpa [joinGame, h1, h2] using h
    · cases hget : jsGet s.players pid with
      | some pl => simpa [joinGame, h1, h2, hget] using h
      | none =>
        simp only [joinGame, h1, h2, hget, if_neg, if_false, Good,
                   sendSystemMessage, broadcastChatMessage]
        exact goodCore_append_new h hget rfl

theorem good_takeCue {s : GameState} (sock now : Nat) (pid : String)
    (h : Good s) : Good (takeCue s sock now pid).1 := by
  cases hget : jsGet s.players pid with
  | none => simpa [takeCue, hget] using h
  | some pl =>
    by_cases hsock : pl.socketId = sock
    · cases hcp : s.currentPlayer with
      | some q => simpa [takeCue, hget, hsock, hcp] using h
      | none =>
        simp only [takeCue, hget, hsock, hcp, if_true, Good,
                   sendSystemMessage, broadcastChatMessage]
        have h0 : GoodCore s.players none := by
          have := h
          unfold Good at this
          rwa [hcp] at this
        exact goodCore_take h0
    · simpa [takeCue, hget, hsock] using h

theorem good_releaseCue {s : GameState} (sock now : Nat) (pid : String)
    (h : Good s) : Good (releaseCue s sock now pid).1 := by
  cases hget : jsGet s.players pid with
  | none => simpa [releaseCue, hget] using h
  | some pl =>
    by_cases hsock : pl.socketId = sock
    · by_cases hcp : s.currentPlayer = some pid
      · simp only [releaseCue, hget, hsock, hcp, if_true, Good,
                   sendSystemMessage, broadcastChatMessage]
        have h0 : GoodCore s.players (some pid) := by
          have := h
          unfold Good at this
          rwa [hcp] at this
        exact goodCore_release (fun p => rfl) h0
      · simpa [releaseCue, hget, hsock, hcp] using h
    · simpa [releaseCue, hget, hsock] using h

theorem good_chatMessage {s : GameState} (sock now : Nat) (pid content : String)
    (h : Good s) : Good (chatMessage s sock now pid content).1 := by
  cases hget : jsGet s.players pid with
  | none => simpa [chatMessage, hget] using h
  | some pl =>
    by_cases hsock : pl.socketId = sock
    · by_cases hrl : now - pl.lastChatTime < CHAT_RATE_LIMIT
      · simpa [chatMessage, hget, hsock, hrl] using h
      · cases hv : validateMessage content with
        | error reason => simpa [chatMessage, hget, hsock, hrl, hv] using h
        | ok trimmed =>
          simp only [chatMessage, hget, hsock, hrl, hv, if_true, if_false, Good,
                     broadcastChatMessage]
          exact goodCore_update_frame (fun p => rfl) h
    · simpa [chatMessage, hget, hsock] using h

theorem good_heartbeat {s : GameState} (sock now : Nat) (pid : String)
    (h : Good s) : Good (heartbeat s sock now pid).1 := by
  cases hget : jsGet s.players pid with
  | none => simpa [heartbeat, hget] using h
  | some pl =>
    by_cases hsock : pl.socketId = sock
    · simp only [heartbeat, hget, hsock, if_true, Good]
      exact goodCore_update_frame (fun p => rfl) h
    · simpa [heartbeat, hget, hsock] using h

theorem good_shotStart {s : GameState} (sock now : Nat) (pid : String)
    (balls : Payload) (sd : Nat) (h : Good s) : Good (shotStart s sock now pid balls sd).1 := by
  cases hget : jsGet s.players pid with
  | none => simpa [shotStart, hget] using h
  | some pl =>
    by_cases hc : pl.socketId = sock ∧ s.currentPlayer = some pid
    · simp [shotStart, hget, hc, Good, sendSystemMessage, broadcastChatMessage]
      have h0 : GoodCore s.players (some pid) := by
        have hx := h
        unfold Good at hx
        rwa [hc.2] at hx
      exact goodCore_update_frame (fun p => rfl) h0
    · simpa [shotStart, hget, hc] using h

theorem good_watchdogFire {s : GameState} (now : Nat) (pid : String)
    (h : Good s) : Good (watchdogFire s now pid).1 := by
  by_cases hc : s.isSimulating = true ∧ s.shotPlayerId = some pid
  · simpa [watchdogFire, hc, Good, sendSystemMessage, broadcastChatMessage] using h
  · simpa [watchdogFire, hc, Good] using h

theorem good_ballsStateUpdate {s : GameState} (sock now : Nat) (pid : String)
    (st : Payload) (h : Good s) : Good (ballsStateUpdate s sock now pid st).1 := by
  cases hget : jsGet s.players pid with
  | none => simpa [ballsStateUpdate, hget] using h
  | some pl =>
    by_cases hsock : pl.socketId = sock
    · simp only [ballsStateUpdate, hget, hsock, if_true, Good]
      exact goodCore_update_frame (fun p => rfl) h
    · simpa [ballsStateUpdate, hget, hsock] using h

theorem good_ballHit {s : GameState} (sock now : Nat) (pid : String)
    (h : Good s) : Good (ballHit s sock now pid).1 := by
  cases hget : jsGet s.players pid with
  | none => simpa [ballHit, hget] using h
  | some pl =>
    by_cases hc : pl.socketId = sock ∧ s.currentPlayer = some pid
    · simp [ballHit, hget, hc, Good, sendSystemMessage, broadcastChatMessage]
      have h0 : GoodCore s.players (some pid) := by
        have hx := h
        unfold Good at hx
        rwa [hc.2] at hx
      exact goodCore_update_frame (fun p => rfl) h0
    · simpa [ballHit, hget, hc] using h

theorem good_simulationComplete {s : GameState} (sock now : Nat) (pid : String)
    (fs : Payload) (h : Good s) : Good (simulationComplete s sock now pid fs).1 := by
  cases hget : jsGet s.players pid with
  | none => simpa [simulationComplete, hget] using h
  | some pl =>
    by_cases hsock : pl.socketId = sock
    · simp only [simulationComplete, hget, hsock, if_true, Good]
      exact goodCore_update_frame (fun p => rfl) h
    · simpa [simulationComplete, hget, hsock] using h

theorem good_resetTable {s : GameState} (sock now : Nat) (pid : String)
    (h : Good s) : Good (resetTable s sock now pid).1 := by
  cases hget : jsGet s.players pid with
  | none => simpa [resetTable, hget] using h
  | some pl =>
    by_cases hsock : pl.socketId = sock
    · by_cases hcp : s.currentPlayer = some pid
      · simp [resetTable, hget, hsock, hcp, Good,
              sendSystemMessage, broadcastChatMessage]
        have h0 : GoodCore s.players (some pid) := by
          have hx := h
          unfold Good at hx
          rwa [hcp] at hx
        exact goodCore_update_frame (fun p => rfl) h0
      · simpa [resetTable, hget, hsock, hcp] using h
    · simpa [resetTable, hget, hsock] using h

theorem good_settleFire {s : GameState} (now : Nat) (pid : String)
    (h : Good s) : Good (settleFire s now pid).1 := by
  simpa [settleFire, Good, sendSystemMessage, broadcastChatMessage] using h

theorem processPocket_players (now : Nat) (pid : String) (acc : GameState × List Ev)
    (info : PocketInfo) : (processPocket now pid acc info).1.players = acc.1.players := by
  by_cases h0 : info.ballNumber = 0
  · simp [processPocket, h0]
  · by_cases hr : info.ballNumber < 1 ∨ 15 < info.ballNumber
    · simp [processPocket, h0, hr]
    · cases hsc : jsGet acc.1.playerScores pid with
      | none =>
        simp only [processPocket, h0, hr, hsc, if_false, if_neg]
        cases hsc2 : jsGet (acc.1.playerScores ++ [(pid, ([] : List Int))]) pid with
        | none => simp [hsc2]
        | some l =>
          by_cases hmem : info.ballNumber ∈ l
          · simp [hsc2, hmem]
          · simp [hsc2, hmem, sendSystemMessage, broadcastChatMessage]
      | some l =>
        simp only [processPocket, h0, hr, hsc, if_false, if_neg]
        by_cases hmem : info.ballNumber ∈ l
        · simp [hmem]
        · simp [hmem, sendSystemMessage, broadcastChatMessage]

theorem processPocket_currentPlayer (now : Nat) (pid : String) (acc : GameState × List Ev)
    (info : PocketInfo) : (processPocket now pid acc info).1.currentPlayer = acc.1.currentPlayer := by
  by_cases h0 : info.ballNumber = 0
  · simp [processPocket, h0]
  · by_cases hr : info.ballNumber < 1 ∨ 15 < info.ballNumber
    · simp [processPocket, h0, hr]
    · cases hsc : jsGet acc.1.playerScores pid with
      | none =>
        simp only [processPocket, h0, hr, hsc, if_false, if_neg]
        cases hsc2 : jsGet (acc.1.playerScores ++ [(pid, ([] : List Int))]) pid with
        | none => simp [hsc2]
        | some l =>
          by_cases hmem : info.ballNumber ∈ l
          · simp [hsc2, hmem]
          · simp [hsc2, hmem, sendSystemMessage, broadcastChatMessage]
      | some l =>
        simp only [processPocket, h0, hr, hsc, if_false, if_neg]
        by_cases hmem : info.ballNumber ∈ l
        · simp [hmem]
        · simp [hmem, sendSystemMessage, broadcastChatMessage]

theorem good_ballsPocketed {s : GameState} (sock now : Nat) (pid : String)
    (infos : List PocketInfo) (h : Good s) : Good (ballsPocketed s sock now pid infos).1 := by
  cases hget : jsGet s.players pid with
  | none => simpa [ballsPocketed, hget] using h
  | some pl =>
    by_cases hsock : pl.socketId = sock
    · by_cases hauth : s.currentPlayer = some pid ∨ s.shotPlayerId = some pid
      · have hfold : ∀ (l : List PocketInfo) (acc : GameState × List Ev),
            (acc.1.players = s.players ∧ acc.1.currentPlayer = s.currentPlayer) →
            ((l.foldl (processPocket now pid) acc).1.players = s.players ∧
             (l.foldl (processPocket now pid) acc).1.currentPlayer = s.currentPlayer) := by
          intro l
          apply foldlPreserve
            (fun acc : GameState × List Ev =>
              acc.1.players = s.players ∧ acc.1.currentPlayer = s.currentPlayer)
          intro b a hb
          rw [processPocket_players, processPocket_currentPlayer]
          exact hb
        have hf := hfold infos (s, []) ⟨rfl, rfl⟩
        simp only [ballsPocketed, hget, hsock, hauth, if_true, Good]
        rw [hf.1, hf.2]
        exact goodCore_update_frame (fun p => rfl) h
      · simpa [ballsPocketed, hget, hsock, hauth] using h
    · simpa [ballsPocketed, hget, hsock] using h

theorem good_clearScores {s : GameState} (sock now : Nat) (pid : String)
    (h : Good s) : Good (clearScores s sock now pid).1 := by
  cases hget : jsGet s.players pid with
  | none => simpa [clearScores, hget] using h
  | some pl =>
    by_cases hsock : pl.socketId = sock
    · by_cases hcp : s.currentPlayer = some pid
      · simp [clearScores, hget, hsock, hcp, Good,
              sendSystemMessage, broadcastChatMessage]
        have h0 : GoodCore s.players (some pid) := by
          have hx := h
          unfold Good at hx
          rwa [hcp] at hx
        exact goodCore_update_frame (fun p => rfl) h0
      · simpa [clearScores, hget, hsock, hcp] using h
    · simpa [clearScores, hget, hsock] using h

theorem good_getScores {s : GameState} (sock : Nat) (pid : String)
    (h : Good s) : Good (getScores s sock pid).1 := by
  cases hget : jsGet s.players pid with
  | none => simpa [getScores, hget] using h
  | some pl =>
    by_cases hsock : pl.socketId = sock <;> simpa [getScores, hget, hsock] using h

theorem good_removePlayer {s : GameState} (now : Nat) (pid reason : String)
    (h : Good s) : Good (removePlayer s now pid reason).1 := by
  cases hget : jsGet s.players pid with
  | none =>
    rw [removePlayer_of_absent hget]
    exact h
  | some pl =>
    unfold Good
    rw [removePlayer_players hget, removePlayer_currentPlayer hget]
    by_cases hcp : s.currentPlayer = some pid
    · rw [if_pos hcp]
      have h0 : GoodCore s.players (some pid) := by
        have := h
        unfold Good at this
        rwa [hcp] at this
      exact goodCore_delete_release h0
    · rw [if_neg hcp]
      exact goodCore_delete_keep h

theorem good_handleDisconnect {s : GameState} (sock now : Nat)
    (h : Good s) : Good (handleDisconnect s sock now).1 := by
  cases hf : s.players.find? (fun pr => pr.2.socketId == sock) with
  | none => simpa [handleDisconnect, hf] using h
  | some pr =>
    simp only [handleDisconnect, hf]
    exact good_removePlayer now pr.1 ("断开连接") h

theorem good_sweepStep {acc : SweepAcc} (now : Nat) (pid : String)
    (h : Good acc.st) : Good (sweepStep now acc pid).st := by
  cases hget : jsGet acc.st.players pid with
  | none => simpa [sweepStep, hget] using h
  | some pl =>
    by_cases h1 : now - pl.lastHeartbeat > PLAYER_TIMEOUT
    · simpa [sweepStep, hget, h1] using h
    · by_cases h2 : pl.isHoldingCue = true ∧ acc.st.currentPlayer = some pid
      · by_cases h3 : now - pl.lastHeartbeat > CUE_TIMEOUT
        · simp only [sweepStep, hget, h1, h2, h3, if_true, if_false, and_true, Good]
          have h0 : GoodCore acc.st.players (some pid) := by
            have := h
            unfold Good at this
            rwa [h2.2] at this
          exact goodCore_release (fun p => rfl) h0
        · simpa [sweepStep, hget, h1, h2, h3] using h
      · simpa [sweepStep, hget, h1, h2] using h

theorem good_sweepFold (now : Nat) :
    ∀ (l : List String) (acc : SweepAcc),
      Good acc.st → Good (l.foldl (sweepStep now) acc).st := by
  intro l
  induction l with
  | nil =>
    intro acc h
    simpa using h
  | cons a r ih =>
    intro acc h
    simp only [List.foldl_cons]
    exact ih _ (good_sweepStep now a h)

theorem good_removalFold (now : Nat) :
    ∀ (l : List String) (b : GameState × List Ev),
      Good b.1 →
      Good (l.foldl (fun pr pid =>
        let r := removePlayer pr.1 now pid ("超时断开")
        (r.1, pr.2 ++ r.2)) b).1 := by
  intro l
  induction l with
  | nil =>
    intro b h
    simpa using h
  | cons a r ih =>
    intro b h
    simp only [List.foldl_cons]
    exact ih _ (good_removePlayer now a ("超时断开") h)

theorem good_checkPlayerTimeouts {s : GameState} (now : Nat)
    (h : Good s) : Good (checkPlayerTimeouts s now).1 := by
  simp only [checkPlayerTimeouts]
  exact good_removalFold now _ _ (good_sweepFold now (keysOf s.players)
    { st := s, evs := [], toRemove := [] } h)

theorem good_initial : Good initialState := by
  constructor
  · intro pr hpr
    simp [initialState] at hpr
  · simp [initialState, keysOf]

theorem good_reachable {s : GameState} (h : Reachable s) : Good s := by
  induction h with
  | init => exact good_initial
  | step hr hs ih =>
    cases hs with
    | join sock now pid => exact good_joinGame sock now pid ih
    | chat sock now pid content => exact good_chatMessage sock now pid content ih
    | hb sock now pid => exact good_heartbeat sock now pid ih
    | pingStep sock d => exact ih
    | take sock now pid => exact good_takeCue sock now pid ih
    | release sock now pid => exact good_releaseCue sock now pid ih
    | shot sock now pid balls sd => exact good_shotStart sock now pid balls sd ih
    | watchdog now pid harm => exact good_watchdogFire now pid ih
    | ballsSync sock now pid st => exact good_ballsStateUpdate sock now pid st ih
    | hit sock now pid => exact good_ballHit sock now pid ih
    | simComplete sock now pid fs => exact good_simulationComplete sock now pid fs ih
    | reset sock now pid => exact good_resetTable sock now pid ih
    | settle now pid harm => exact good_settleFire now pid ih
    | pocketed sock now pid infos => exact good_ballsPocketed sock now pid infos ih
    | clear sock now pid => exact good_clearScores sock now pid ih
    | board sock pid => exact good_getScores sock pid ih
    | disconnect sock now => exact good_handleDisconnect sock now ih
    | teardown now pid reason => exact good_removePlayer now pid reason ih
    | sweep now => exact good_checkPlayerTimeouts now ih

end IncrediPool

namespace IncrediPool

/-- C1: in every reachable state (any interleaving of join, takeCue,
releaseCue, disconnect teardown, liveness sweep and the remaining
handlers), every live session flagged as holding the cue is the one
named by gameState.currentPlayer, and hence at most one live session
holds the cue at any instant. -/
theorem cue_mutual_exclusion (s : GameState) (h : Reachable s) :
    (∀ pr ∈ s.players, pr.2.isHoldingCue = true → s.currentPlayer = some pr.1) ∧
    (∀ pr1 ∈ s.players, ∀ pr2 ∈ s.players,
      pr1.2.isHoldingCue = true → pr2.2.isHoldingCue = true → pr1 = pr2) := by
  have hg := good_reachable h
  refine ⟨hg.1, ?_⟩
  intro pr1 h1 pr2 h2 hh1 hh2
  have e1 := hg.1 pr1 h1 hh1
  have e2 := hg.1 pr2 h2 hh2
  have hk : pr1.1 = pr2.1 := Option.some_injective _ (e1.symm.trans e2)
  exact mem_unique_of_nodup_keys hg.2 h1 h2 hk

theorem cue_mutual_exclusion_witness :
    demoTake.currentPlayer = some ("P1") := by
  have hr1 : Reachable demoJoin1 :=
    Reachable.step Reachable.init (Step.join initialState 1 0 ("P1"))
  have hr2 : Reachable demoTake :=
    Reachable.step hr1 (Step.take demoJoin1 1 5 ("P1"))
  have hmem : (("P1"),
      ({ socketId := 1, isHoldingCue := true, lastHeartbeat := 5,
         lastChatTime := 0 } : Player)) ∈ demoTake.players := by decide
  exact (cue_mutual_exclusion demoTake hr2).1 _ hmem (by decide)

theorem sweepStep_simFrame (now : Nat) (acc : SweepAcc) (pid : String) :
    (sweepStep now acc pid).st.isSimulating = acc.st.isSimulating ∧
    (sweepStep now acc pid).st.shotPlayerId = acc.st.shotPlayerId ∧
    (sweepStep now acc pid).st.simulationTimer = acc.st.simulationTimer := by
  cases hget : jsGet acc.st.players pid with
  | none => simp [sweepStep, hget]
  | some pl =>
    by_cases h1 : now - pl.lastHeartbeat > PLAYER_TIMEOUT
    · simp [sweepStep, hget, h1]
    · by_cases h2 : pl.isHoldingCue = true ∧ acc.st.currentPlayer = some pid
      · by_cases h3 : now - pl.lastHeartbeat > CUE_TIMEOUT
        · simp [sweepStep, hget, h1, h2, h3]
        · simp [sweepStep, hget, h1, h2, h3]
      · simp [sweepStep, hget, h1, h2]

theorem checkPlayerTimeouts_simFrame (s : GameState) (now : Nat) :
    (checkPlayerTimeouts s now).1.isSimulating = s.isSimulating ∧
    (checkPlayerTimeouts s now).1.shotPlayerId = s.shotPlayerId ∧
    (checkPlayerTimeouts s now).1.simulationTimer = s.simulationTimer := by
  simp only [checkPlayerTimeouts]
  have hsweep : ∀ (l : List String) (acc : SweepAcc),
      (acc.st.isSimulating = s.isSimulating ∧ acc.st.shotPlayerId = s.shotPlayerId ∧
       acc.st.simulationTimer = s.simulationTimer) →
      ((l.foldl (sweepStep now) acc).st.isSimulating = s.isSimulating ∧
       (l.foldl (sweepStep now) acc).st.shotPlayerId = s.shotPlayerId ∧
       (l.foldl (sweepStep now) acc).st.simulationTimer = s.simulationTimer) := by
    intro l
    induction l with
    | nil =>
      intro acc h
      simpa using h
    | cons a r ih =>
      intro acc h
      simp only [List.foldl_cons]
      refine ih _ ?_
      obtain ⟨f1, f2, f3⟩ := sweepStep_simFrame now acc a
      rw [f1, f2, f3]
      exact h
  have hremove : ∀ (l : List String) (b : GameState × List Ev),
      (b.1.isSimulating = s.isSimulating ∧ b.1.shotPlayerId = s.shotPlayerId ∧
       b.1.simulationTimer = s.simulationTimer) →
      (((l.foldl (fun pr pid =>
          let r := removePlayer pr.1 now pid ("超时断开")
          (r.1, pr.2 ++ r.2)) b).1.isSimulating = s.isSimulating) ∧
       ((l.foldl (fun pr pid =>
          let r := removePlayer pr.1 now pid ("超时断开")
          (r.1, pr.2 ++ r.2)) b).1.shotPlayerId = s.shotPlayerId) ∧
       ((l.foldl (fun pr pid =>
          let r := removePlayer pr.1 now pid ("超时断开")
          (r.1, pr.2 ++ r.2)) b).1.simulationTimer = s.simulationTimer)) := by
    intro l
    induction l with
    | nil =>
      intro b h
      simpa using h
    | cons a r ih =>
      intro b h
      simp only [List.foldl_cons]
      refine ih _ ?_
      rw [removePlayer_isSimulating, removePlayer_shotPlayerId, removePlayer_simulationTimer]
      exact h
  exact hremove _ _ (hsweep (keysOf s.players)
    { st := s, evs := [], toRemove := [] } ⟨rfl, rfl, rfl⟩)

/-- C10: removing the shooter (disconnect/teardown or sweep) while a
shot simulates leaves isSimulating, shotPlayerId and the pending
watchdog untouched, and the watchdog still fires: it flips
isSimulating back to false, clears shotPlayerId, consumes the timer
and broadcasts simulationEnd — so Simulating never outlives the
watchdog window even with the initiator gone. -/
theorem watchdog_survives_teardown (s : GameState) (now now2 fireTime : Nat)
    (pid reason : String)
    (hsim : s.isSimulating = true) (hshot : s.shotPlayerId = some pid)
    (htimer : s.simulationTimer = some pid) :
    (removePlayer s now pid reason).1.isSimulating = true ∧
    (removePlayer s now pid reason).1.shotPlayerId = some pid ∧
    (removePlayer s now pid reason).1.simulationTimer = some pid ∧
    (watchdogFire (removePlayer s now pid reason).1 fireTime pid).1.isSimulating = false ∧
    (watchdogFire (removePlayer s now pid reason).1 fireTime pid).1.shotPlayerId = none ∧
    (watchdogFire (removePlayer s now pid reason).1 fireTime pid).1.simulationTimer = none ∧
    Ev.simulationEnd pid ∈ (watchdogFire (removePlayer s now pid reason).1 fireTime pid).2 ∧
    (checkPlayerTimeouts s now2).1.isSimulating = true ∧
    (checkPlayerTimeouts s now2).1.shotPlayerId = some pid ∧
    (checkPlayerTimeouts s now2).1.simulationTimer = some pid := by
  have h1 : (removePlayer s now pid reason).1.isSimulating = true := by
    rw [removePlayer_isSimulating]
    exact hsim
  have h2 : (removePlayer s now pid reason).1.shotPlayerId = some pid := by
    rw [removePlayer_shotPlayerId]
    exact hshot
  have h3 : (removePlayer s now pid reason).1.simulationTimer = some pid := by
    rw [removePlayer_simulationTimer]
    exact htimer
  obtain ⟨f1, f2, f3⟩ := checkPlayerTimeouts_simFrame s now2
  refine ⟨h1, h2, h3, ?_, ?_, ?_, ?_, f1.trans hsim, f2.trans hshot, f3.trans htimer⟩
  · simp [watchdogFire, h1, h2, sendSystemMessage, broadcastChatMessage]
  · simp [watchdogFire, h1, h2, sendSystemMessage, broadcastChatMessage]
  · simp [watchdogFire, h1, h2, sendSystemMessage, broadcastChatMessage]
  · simp [watchdogFire, h1, h2, sendSystemMessage, broadcastChatMessage]

theorem watchdog_survives_teardown_witness :
    (watchdogFire (removePlayer demoShot 20 ("P1") ("断开连接")).1 30 ("P1")).1.isSimulating
        = false ∧
    Ev.simulationEnd ("P1") ∈
      (watchdogFire (removePlayer demoShot 20 ("P1") ("断开连接")).1 30 ("P1")).2 := by
  have h := watchdog_survives_teardown demoShot 20 40 30 ("P1") ("断开连接")
    (by decide) (by decide) (by decide)
  exact ⟨h.2.2.2.1, h.2.2.2.2.2.2.1⟩

end IncrediPool

namespace IncrediPool

theorem sweepStep_events (now : Nat) (acc : SweepAcc) (pid : String) :
    ((sweepStep now acc pid).evs.filter isForceRelease) = acc.evs.filter isForceRelease := by
  cases hget : jsGet acc.st.players pid with
  | none => simp [sweepStep, hget]
  | some pl =>
    by_cases h1 : now - pl.lastHeartbeat > PLAYER_TIMEOUT
    · simp [sweepStep, hget, h1]
    · by_cases h2 : pl.isHoldingCue = true ∧ acc.st.currentPlayer = some pid
      · by_cases h3 : now - pl.lastHeartbeat > CUE_TIMEOUT
        · exfalso
          simp only [PLAYER_TIMEOUT] at h1
          simp only [CUE_TIMEOUT] at h3
          omega
        · simp [sweepStep, hget, h1, h2, h3]
      · simp [sweepStep, hget, h1, h2]

theorem sweep_no_forceRelease (s : GameState) (now : Nat) :
    ((checkPlayerTimeouts s now).2.filter isForceRelease) = [] := by
  simp only [checkPlayerTimeouts]
  have hsweep : ∀ (l : List String) (acc : SweepAcc),
      acc.evs.filter isForceRelease = [] →
      ((l.foldl (sweepStep now) acc).evs.filter isForceRelease) = [] := by
    intro l
    induction l with
    | nil =>
      intro acc h
      simpa using h
    | cons a r ih =>
      intro acc h
      simp only [List.foldl_cons]
      refine ih _ ?_
      rw [sweepStep_events]
      exact h
  have hremove : ∀ (l : List String) (b : GameState × List Ev),
      (b.2.filter isForceRelease = []) →
      (((l.foldl (fun pr pid =>
        let r := removePlayer pr.1 now pid ("超时断开")
        (r.1, pr.2 ++ r.2)) b).2.filter isForceRelease) = []) := by
    intro l
    induction l with
    | nil =>
      intro b h
      simpa using h
    | cons a r ih =>
      intro b h
      simp only [List.foldl_cons]
      refine ih _ ?_
      simp only [List.filter_append, h, removePlayer_no_forceRelease, List.append_nil]
  exact hremove _ _ (hsweep (keysOf s.players)
    { st := s, evs := [], toRemove := [] } rfl)

/-- C4: the hold-timeout force-release can never happen.  Both sweep
checks compare the same heartbeat age, and the 120 s cue check sits in
the else branch of the 60 s staleness check, so no sweep ever emits
forceReleaseCue; at the concrete failing input (holder P1 with a
130 s-old heartbeat) the sweep instead evicts the session entirely. -/
theorem sweep_hold_timeout_dead :
    (∀ (s : GameState) (now : Nat),
      ((checkPlayerTimeouts s now).2.filter isForceRelease) = []) ∧
    (checkPlayerTimeouts staleHolderState 130000).1.players = [] ∧
    ((checkPlayerTimeouts staleHolderState 130000).2.filter isForceRelease) = [] := by
  refine ⟨fun s now => sweep_no_forceRelease s now, ?_, ?_⟩ <;> decide

/-- C2 counterexample: in the reachable state demoShot (P1 holds the
cue and a simulation is in progress with the watchdog armed), a second
shotStart from the holder is NOT rejected: the shared payload changes
and the shot broadcast is emitted with no error event. -/
theorem shotStart_midSimulation_accepted :
    demoShot.isSimulating = true ∧
    demoShot.ballsState = Payload.blob 1 ∧
    (shotStart demoShot 1 20 ("P1") (Payload.blob 2) 8).1.ballsState = Payload.blob 2 ∧
    ((shotStart demoShot 1 20 ("P1") (Payload.blob 2) 8).2.filter isErrorEv) = [] ∧
    ((shotStart demoShot 1 20 ("P1") (Payload.blob 2) 8).2.filter isShotStartEv) =
      [Ev.shotStartEv ("P1") (Payload.blob 2) 8 120] := by
  decide

/-- C2 (amended): shotStart succeeds iff the caller is a live session
with a matching transport key that is the current resource holder —
the Idle/simulating state is not consulted, so a holder's shotStart
during an active simulation is accepted and restarts the shot
(storing the new payload, re-arming the watchdog).  Every rejection
emits one error to the caller and leaves the state unchanged. -/
theorem shotStart_guard (s : GameState) (sock now : Nat) (pid : String)
    (balls : Payload) (sd : Nat) :
    ((∃ pl, jsGet s.players pid = some pl ∧ pl.socketId = sock) ∧
        s.currentPlayer = some pid →
      ((shotStart s sock now pid balls sd).1.isSimulating = true ∧
       (shotStart s sock now pid balls sd).1.ballsState = balls ∧
       (shotStart s sock now pid balls sd).1.shotPlayerId = some pid ∧
       (shotStart s sock now pid balls sd).1.simulationTimer = some pid ∧
       (shotStart s sock now pid balls sd).1.currentPlayer = some pid ∧
       (shotStart s sock now pid balls sd).2 =
         [Ev.shotStartEv pid balls sd (now + 100),
          Ev.chatMessageEv (createSystemMessage now (pid ++ " 击球了！") ("info"))])) ∧
    (¬((∃ pl, jsGet s.players pid = some pl ∧ pl.socketId = sock) ∧
        s.currentPlayer = some pid) →
      shotStart s sock now pid balls sd = (s, [Ev.errorEv sock ("无效的击球请求")])) := by
  constructor
  · rintro ⟨⟨pl, hget, hsock⟩, hcp⟩
    have hc : pl.socketId = sock ∧ s.currentPlayer = some pid := ⟨hsock, hcp⟩
    simp [shotStart, hget, hc, hcp, sendSystemMessage, broadcastChatMessage]
  · intro hno
    cases hget : jsGet s.players pid with
    | none => simp [shotStart, hget]
    | some pl =>
      have hc : ¬(pl.socketId = sock ∧ s.currentPlayer = some pid) := by
        intro hc
        exact hno ⟨⟨pl, hget, hc.1⟩, hc.2⟩
      simp [shotStart, hget, hc]

theorem shotStart_guard_witness :
    (shotStart demoTake 1 10 ("P1") (Payload.blob 1) 7).1.isSimulating = true ∧
    (shotStart demoTake 1 10 ("P1") (Payload.blob 1) 7).1.simulationTimer = some ("P1") := by
  have h := (shotStart_guard demoTake 1 10 ("P1") (Payload.blob 1) 7).1
    ⟨⟨{ socketId := 1, isHoldingCue := true, lastHeartbeat := 5, lastChatTime := 0 },
      by decide, rfl⟩, by decide⟩
  exact ⟨h.1, h.2.2.2.1⟩

/-- C3 counterexample: after a completed shot report in the reachable
state demoShot, simulationComplete leaves the armed watchdog pending
and the shot holder id set — the claim says both are cleared. -/
theorem simulationComplete_leaves_watchdog :
    demoShot.simulationTimer = some ("P1") ∧
    demoShot.shotPlayerId = some ("P1") ∧
    (simulationComplete demoShot 1 25 ("P1") (Payload.blob 3)).1.simulationTimer
      = some ("P1") ∧
    (simulationComplete demoShot 1 25 ("P1") (Payload.blob 3)).1.shotPlayerId
      = some ("P1") ∧
    (simulationComplete demoShot 1 25 ("P1") (Payload.blob 3)).1.isSimulating = false := by
  decide

/-- C3 (amended): for a live session with a matching transport key,
simulationComplete sets simulating to false, stores the reported
payload as authoritative, broadcasts syncConfirm to everyone plus the
raw relay to the others, and refreshes the reporter's heartbeat — but
it does NOT cancel the armed watchdog and does NOT clear
gameState.shotPlayerId; the stale watchdog later fires as a pure
no-op because simulating is already false. -/
theorem simulationComplete_effects (s : GameState) (sock now : Nat) (pid : String)
    (fs : Payload) (pl : Player)
    (hget : jsGet s.players pid = some pl) (hsock : pl.socketId = sock) :
    (simulationComplete s sock now pid fs).1.isSimulating = false ∧
    (simulationComplete s sock now pid fs).1.ballsState = fs ∧
    (simulationComplete s sock now pid fs).1.simulationTimer = s.simulationTimer ∧
    (simulationComplete s sock now pid fs).1.shotPlayerId = s.shotPlayerId ∧
    (simulationComplete s sock now pid fs).1.currentPlayer = s.currentPlayer ∧
    jsGet (simulationComplete s sock now pid fs).1.players pid =
      some { pl with lastHeartbeat := now } ∧
    (simulationComplete s sock now pid fs).2 =
      [Ev.syncConfirm pid fs, Ev.simulationCompleteRelay sock pid fs] ∧
    (∀ (q : String) (ft : Nat),
      (watchdogFire (simulationComplete s sock now pid fs).1 ft q).2 = [] ∧
      (watchdogFire (simulationComplete s sock now pid fs).1 ft q).1 =
        { (simulationComplete s sock now pid fs).1 with simulationTimer := none }) := by
  have hstate : (simulationComplete s sock now pid fs).1 =
      { s with
        isSimulating := false,
        ballsState := fs,
        players := jsUpdate s.players pid (fun p => { p with lastHeartbeat := now }) } := by
    simp [simulationComplete, hget, hsock]
  have hev : (simulationComplete s sock now pid fs).2 =
      [Ev.syncConfirm pid fs, Ev.simulationCompleteRelay sock pid fs] := by
    simp [simulationComplete, hget, hsock]
  refine ⟨by rw [hstate], by rw [hstate], by rw [hstate], by rw [hstate], by rw [hstate],
    ?_, hev, ?_⟩
  · rw [hstate]
    simp [jsGet_jsUpdate, hget]
  · intro q ft
    constructor
    · simp [watchdogFire, hstate]
    · simp [watchdogFire, hstate]

theorem simulationComplete_effects_witness :
    (simulationComplete demoShot 1 25 ("P1") (Payload.blob 3)).1.isSimulating = false ∧
    (simulationComplete demoShot 1 25 ("P1") (Payload.blob 3)).2 =
      [Ev.syncConfirm ("P1") (Payload.blob 3),
       Ev.simulationCompleteRelay 1 ("P1") (Payload.blob 3)] := by
  have h := simulationComplete_effects demoShot 1 25 ("P1") (Payload.blob 3)
    { socketId := 1, isHoldingCue := true, lastHeartbeat := 10, lastChatTime := 0 }
    (by decide) rfl
  exact ⟨h.1, h.2.2.2.2.2.2.1⟩

/-- C8 counterexample: a heartbeat whose transport key does not match
the session's stored key is ignored without any reply — no
Unauthorized error is reported to the caller, contrary to the claim. -/
theorem heartbeat_mismatch_silent :
    heartbeat demoJoin1 2 100 ("P1") = (demoJoin1, []) := by
  decide

/-- C8 (amended): a heartbeat with an unknown id or a mismatched
transport key is silently ignored (no error event, no state change);
on a match, the session's lastHeartbeat is set to now and the caller
is acknowledged with exactly that timestamp. -/
theorem heartbeat_guard (s : GameState) (sock now : Nat) (pid : String) :
    (∀ pl, jsGet s.players pid = some pl → pl.socketId = sock →
      heartbeat s sock now pid =
        ({ s with players := jsUpdate s.players pid (fun p => { p with lastHeartbeat := now }) },
         [Ev.heartbeatResponse sock now])) ∧
    (∀ pl, jsGet s.players pid = some pl → pl.socketId ≠ sock →
      heartbeat s sock now pid = (s, [])) ∧
    (jsGet s.players pid = none → heartbeat s sock now pid = (s, [])) := by
  refine ⟨?_, ?_, ?_⟩
  · intro pl hget hsock
    simp [heartbeat, hget, hsock]
  · intro pl hget hsock
    simp [heartbeat, hget, hsock]
  · intro hget
    simp [heartbeat, hget]

theorem heartbeat_guard_witness :
    heartbeat demoJoin1 1 100 ("P1") =
      ({ demoJoin1 with players := jsUpdate demoJoin1.players ("P1") (fun p => { p with lastHeartbeat := 100 }) },
       [Ev.heartbeatResponse 1 100]) := by
  exact (heartbeat_guard demoJoin1 1 100 ("P1")).1
    { socketId := 1, isHoldingCue := false, lastHeartbeat := 0, lastChatTime := 0 }
    (by decide) rfl

/-- C7: a chat arriving within CHAT_RATE_LIMIT of the session's last
accepted chat is rejected with a single chatError sent only to the
caller carrying the remaining wait (ceil of the remainder in
seconds), and the whole game state — history, lastChatTime,
lastHeartbeat — is unchanged. -/
theorem chat_rate_limited (s : GameState) (sock now : Nat) (pid content : String)
    (pl : Player) (hget : jsGet s.players pid = some pl) (hsock : pl.socketId = sock)
    (hrl : now - pl.lastChatTime < CHAT_RATE_LIMIT) :
    chatMessage s sock now pid content =
      (s, [Ev.chatError sock (rateLimitMessage
        ((CHAT_RATE_LIMIT - (now - pl.lastChatTime) + 999) / 1000))]) := by
  simp [chatMessage, hget, hsock, hrl]

theorem chat_rate_limited_witness :
    chatMessage demoChatted 1 8000 ("P1") ("hi") =
      (demoChatted, [Ev.chatError 1 (rateLimitMessage 3)]) := by
  exact chat_rate_limited demoChatted 1 8000 ("P1") ("hi")
    { socketId := 1, isHoldingCue := false, lastHeartbeat := 6000, lastChatTime := 6000 }
    (by decide) rfl (by decide)

end IncrediPool

namespace IncrediPool

/-- C6: a reset by the current holder (matching transport key) wipes
the balls payload, the simulating flag, the shot holder id, the
pending watchdog and the entire score ledger, while the cue itself is
untouched: currentPlayer and every session's isHoldingCue flag are
exactly as before.  A reset by anyone else emits one error to the
caller and changes nothing. -/
theorem resetTable_effects (s : GameState) (sock now : Nat) (pid : String) :
    ((∃ pl, jsGet s.players pid = some pl ∧ pl.socketId = sock) ∧
        s.currentPlayer = some pid →
      ((resetTable s sock now pid).1.ballsState = Payload.empty ∧
       (resetTable s sock now pid).1.isSimulating = false ∧
       (resetTable s sock now pid).1.shotPlayerId = none ∧
       (resetTable s sock now pid).1.simulationTimer = none ∧
       (resetTable s sock now pid).1.playerScores = [] ∧
       (resetTable s sock now pid).1.currentPlayer = s.currentPlayer ∧
       (∀ (q : String) (pl2 : Player), jsGet s.players q = some pl2 →
         ∃ pl3, jsGet (resetTable s sock now pid).1.players q = some pl3 ∧
           pl3.isHoldingCue = pl2.isHoldingCue))) ∧
    (¬((∃ pl, jsGet s.players pid = some pl ∧ pl.socketId = sock) ∧
        s.currentPlayer = some pid) →
      ((resetTable s sock now pid).1 = s ∧
       ∃ m, (resetTable s sock now pid).2 = [Ev.errorEv sock m])) := by
  constructor
  · rintro ⟨⟨pl, hget, hsock⟩, hcp⟩
    have hpl : (resetTable s sock now pid).1.players =
        jsUpdate s.players pid (fun p => { p with lastHeartbeat := now }) := by
      simp [resetTable, hget, hsock, hcp, sendSystemMessage, broadcastChatMessage]
    refine ⟨?_, ?_, ?_, ?_, ?_, ?_, ?_⟩
    · simp [resetTable, hget, hsock, hcp, sendSystemMessage, broadcastChatMessage]
    · simp [resetTable, hget, hsock, hcp, sendSystemMessage, broadcastChatMessage]
    · simp [resetTable, hget, hsock, hcp, sendSystemMessage, broadcastChatMessage]
    · simp [resetTable, hget, hsock, hcp, sendSystemMessage, broadcastChatMessage]
    · simp [resetTable, hget, hsock, hcp, sendSystemMessage, broadcastChatMessage]
    · simp [resetTable, hget, hsock, hcp, sendSystemMessage, broadcastChatMessage]
    · intro q pl2 hq
      rw [hpl, jsGet_jsUpdate]
      by_cases hqp : q = pid
      · subst hqp
        rw [if_pos rfl, hq]
        exact ⟨{ pl2 with lastHeartbeat := now }, rfl, rfl⟩
      · rw [if_neg hqp, hq]
        exact ⟨pl2, rfl, rfl⟩
  · intro hno
    cases hget : jsGet s.players pid with
    | none =>
      constructor
      · simp [resetTable, hget]
      · exact ⟨("玩家验证失败"), by simp [resetTable, hget]⟩
    | some pl =>
      by_cases hsock : pl.socketId = sock
      · have hcp : ¬s.currentPlayer = some pid := by
          intro hcp
          exact hno ⟨⟨pl, hget, hsock⟩, hcp⟩
        constructor
        · simp [resetTable, hget, hsock, hcp]
        · exact ⟨("只有持杆者才能重置球台"), by simp [resetTable, hget, hsock, hcp]⟩
      · constructor
        · simp [resetTable, hget, hsock]
        · exact ⟨("玩家验证失败"), by simp [resetTable, hget, hsock]⟩

theorem resetTable_effects_witness :
    (resetTable demoScored 1 9 ("P1")).1.playerScores = [] ∧
    (resetTable demoScored 1 9 ("P1")).1.currentPlayer = demoScored.currentPlayer := by
  have h := (resetTable_effects demoScored 1 9 ("P1")).1
    ⟨⟨{ socketId := 1, isHoldingCue := true, lastHeartbeat := 7, lastChatTime := 0 },
      by decide, rfl⟩, by decide⟩
  exact ⟨h.2.2.2.2.1, h.2.2.2.2.2.1⟩

/-- C9 counterexample: removing P1 (who has a score entry) while
exactly one other session (P2) is live broadcasts the score-removed
notice even though only one participant remains after the removal —
the size check runs before the deletion, so the claim's
"more than one remains after removal" reading is wrong. -/
theorem removePlayer_notice_with_one_remaining :
    ((removePlayer demoScored 8 ("P1") ("断开连接")).2.filter isScoreRemovedEv
       = [Ev.playerScoreRemoved ("P1") ("断开连接")]) ∧
    (removePlayer demoScored 8 ("P1") ("断开连接")).1.players.length = 1 := by
  decide

/-- C9 (amended): teardown always ends with no ledger entry for the
removed participant, and the score-removed notice is broadcast iff
the removed participant was live, had a ledger entry, and the
registry held more than one session before the removal (i.e. at least
one other participant remains after it). -/
theorem removePlayer_score_notice (s : GameState) (now : Nat) (pid reason : String) :
    ((jsGet s.players pid).isSome →
      jsGet (removePlayer s now pid reason).1.playerScores pid = none) ∧
    ((Ev.playerScoreRemoved pid reason ∈ (removePlayer s now pid reason).2) ↔
      ((jsGet s.players pid).isSome ∧ (jsGet s.playerScores pid).isSome ∧
        s.players.length > 1)) := by
  constructor
  · intro hs
    obtain ⟨pl, hget⟩ := Option.isSome_iff_exists.mp hs
    rw [removePlayer_playerScores hget]
    exact jsGet_jsDelete_self _ _
  · exact removePlayer_scoreRemoved_iff s now pid reason

theorem removePlayer_score_notice_witness :
    jsGet (removePlayer demoScored 8 ("P1") ("断开连接")).1.playerScores ("P1") = none ∧
    Ev.playerScoreRemoved ("P1") ("断开连接")
      ∈ (removePlayer demoScored 8 ("P1") ("断开连接")).2 := by
  have h := removePlayer_score_notice demoScored 8 ("P1") ("断开连接")
  exact ⟨h.1 (by decide), h.2.mpr (by decide)⟩

end IncrediPool

namespace IncrediPool

theorem countScored_append (a b : List Ev) (pid : String) (n : Int) :
    countScored (a ++ b) pid n = countScored a pid n + countScored b pid n := by
  simp [countScored, List.filter_append]

theorem countScored_delta (pid : String) (n bn : Int) (t : String) (ts : Nat) (m : ChatMsg) :
    countScored [Ev.playerScored pid bn t ts, Ev.chatMessageEv m] pid n =
      if bn = n then 1 else 0 := by
  by_cases h : bn = n
  · simp [countScored, h]
  · simp [countScored, h]

theorem processPocket_shotPlayerId (now : Nat) (pid : String) (acc : GameState × List Ev)
    (info : PocketInfo) : (processPocket now pid acc info).1.shotPlayerId = acc.1.shotPlayerId := by
  by_cases h0 : info.ballNumber = 0
  · simp [processPocket, h0]
  · by_cases hr : info.ballNumber < 1 ∨ 15 < info.ballNumber
    · simp [processPocket, h0, hr]
    · cases hsc : jsGet acc.1.playerScores pid with
      | none =>
        simp only [processPocket, h0, hr, hsc, if_false, if_neg]
        cases hsc2 : jsGet (acc.1.playerScores ++ [(pid, ([] : List Int))]) pid with
        | none => simp [hsc2]
        | some l =>
          by_cases hmem : info.ballNumber ∈ l
          · simp [hsc2, hmem]
          · simp [hsc2, hmem, sendSystemMessage, broadcastChatMessage]
      | some l =>
        simp only [processPocket, h0, hr, hsc, if_false, if_neg]
        by_cases hmem : info.ballNumber ∈ l
        · simp [hmem]
        · simp [hmem, sendSystemMessage, broadcastChatMessage]

theorem processPocket_spec (now : Nat) (pid : String) (acc : GameState × List Ev)
    (info : PocketInfo) :
    scoreOf (processPocket now pid acc info).1 pid =
      (if 1 ≤ info.ballNumber ∧ info.ballNumber ≤ 15 ∧ info.ballNumber ∉ scoreOf acc.1 pid
       then scoreOf acc.1 pid ++ [info.ballNumber] else scoreOf acc.1 pid) ∧
    (processPocket now pid acc info).2 =
      acc.2 ++
      (if 1 ≤ info.ballNumber ∧ info.ballNumber ≤ 15 ∧ info.ballNumber ∉ scoreOf acc.1 pid
       then [Ev.playerScored pid info.ballNumber info.pocketType now,
             Ev.chatMessageEv (createSystemMessage now
               ("🎯 " ++ pid ++ " 打进了 " ++ toString info.ballNumber ++ " 号球！") ("info"))]
       else []) := by
  by_cases h0 : info.ballNumber = 0
  · have hcond : ¬(1 ≤ info.ballNumber ∧ info.ballNumber ≤ 15 ∧
        info.ballNumber ∉ scoreOf acc.1 pid) := by
      intro hc
      obtain ⟨ha, _, _⟩ := hc
      rw [h0] at ha
      omega
    simp [processPocket, h0, hcond]
  · by_cases hr : info.ballNumber < 1 ∨ 15 < info.ballNumber
    · have hcond : ¬(1 ≤ info.ballNumber ∧ info.ballNumber ≤ 15 ∧
          info.ballNumber ∉ scoreOf acc.1 pid) := by
        intro hc
        obtain ⟨ha, hb, _⟩ := hc
        rcases hr with h | h <;> omega
      simp [processPocket, h0, hr, hcond]
    · have hin : 1 ≤ info.ballNumber ∧ info.ballNumber ≤ 15 := by
        constructor <;> omega
      cases hsc : jsGet acc.1.playerScores pid with
      | none =>
        have hold : scoreOf acc.1 pid = [] := by simp [scoreOf, hsc]
        have hget2 : jsGet (acc.1.playerScores ++ [(pid, ([] : List Int))]) pid
            = some [] := by
          rw [jsGet_append_none hsc]
          simp [jsGet]
        have hcond : 1 ≤ info.ballNumber ∧ info.ballNumber ≤ 15 ∧
            info.ballNumber ∉ scoreOf acc.1 pid := by
          refine ⟨hin.1, hin.2, ?_⟩
          rw [hold]
          simp
        constructor
        · simp [processPocket, h0, hr, hsc, hget2, hcond, hold, scoreOf,
                jsGet_jsUpdate, sendSystemMessage, broadcastChatMessage]
        · simp [processPocket, h0, hr, hsc, hget2, hcond,
                sendSystemMessage, broadcastChatMessage]
      | some l =>
        have hold : scoreOf acc.1 pid = l := by simp [scoreOf, hsc]
        by_cases hmem : info.ballNumber ∈ l
        · have hcond : ¬(1 ≤ info.ballNumber ∧ info.ballNumber ≤ 15 ∧
              info.ballNumber ∉ scoreOf acc.1 pid) := by
            intro hc
            exact hc.2.2 (hold ▸ hmem)
          constructor
          · simp [processPocket, h0, hr, hsc, hmem, hcond, hold, scoreOf]
          · simp [processPocket, h0, hr, hsc, hmem, hcond]
        · have hcond : 1 ≤ info.ballNumber ∧ info.ballNumber ≤ 15 ∧
              info.ballNumber ∉ scoreOf acc.1 pid := by
            refine ⟨hin.1, hin.2, ?_⟩
            rw [hold]
            exact hmem
          constructor
          · simp [processPocket, h0, hr, hsc, hmem, hcond, hold, scoreOf,
                  jsGet_jsUpdate, sendSystemMessage, broadcastChatMessage]
          · simp [processPocket, h0, hr, hsc, hmem, hcond,
                  sendSystemMessage, broadcastChatMessage]

end IncrediPool

namespace IncrediPool

theorem recordBalls_cons (old : List Int) (b : Int) (rest : List Int) :
    recordBalls old (b :: rest) =
      recordBalls (if 1 ≤ b ∧ b ≤ 15 ∧ b ∉ old then old ++ [b] else old) rest := by
  simp [recordBalls]

theorem mem_recordBalls : ∀ (bns : List Int) (old : List Int) (n : Int),
    n ∈ recordBalls old bns ↔ (n ∈ old ∨ (1 ≤ n ∧ n ≤ 15 ∧ n ∈ bns)) := by
  intro bns
  induction bns with
  | nil =>
    intro old n
    simp [recordBalls]
  | cons b rest ih =>
    intro old n
    rw [recordBalls_cons]
    by_cases hb : 1 ≤ b ∧ b ≤ 15 ∧ b ∉ old
    · rw [if_pos hb, ih]
      by_cases hn : n = b
      · subst hn
        have h1 : n ∈ old ++ [n] := by simp
        simp [h1, hb.1, hb.2.1]
      · have h1 : n ∈ old ++ [b] ↔ n ∈ old := by simp [hn]
        have h2 : n ∈ b :: rest ↔ n ∈ rest := by simp [hn]
        rw [h1, h2]
    · rw [if_neg hb, ih]
      by_cases hn : n = b
      · subst hn
        by_cases hv : 1 ≤ n ∧ n ≤ 15
        · have hold : n ∈ old := by
            by_contra hx
            exact hb ⟨hv.1, hv.2, hx⟩
          simp [hold]
        · have h1 : ¬(1 ≤ n ∧ n ≤ 15 ∧ n ∈ rest) := fun hc => hv ⟨hc.1, hc.2.1⟩
          have h2 : ¬(1 ≤ n ∧ n ≤ 15 ∧ n ∈ n :: rest) := fun hc => hv ⟨hc.1, hc.2.1⟩
          simp [h1, h2]
          intro ha hb2
          exact absurd ⟨ha, hb2⟩ hv
      · have h2 : n ∈ b :: rest ↔ n ∈ rest := by simp [hn]
        rw [h2]

theorem nodup_recordBalls : ∀ (bns : List Int) (old : List Int),
    old.Nodup → (recordBalls old bns).Nodup := by
  intro bns
  induction bns with
  | nil =>
    intro old h
    simpa [recordBalls] using h
  | cons b rest ih =>
    intro old h
    rw [recordBalls_cons]
    by_cases hb : 1 ≤ b ∧ b ≤ 15 ∧ b ∉ old
    · rw [if_pos hb]
      refine ih _ ?_
      simp [List.nodup_append, h, hb.2.2]
    · rw [if_neg hb]
      exact ih _ h

theorem foldPockets_frame (now : Nat) (pid : String) :
    ∀ (infos : List PocketInfo) (acc : GameState × List Ev),
      ((infos.foldl (processPocket now pid) acc).1.players = acc.1.players ∧
       (infos.foldl (processPocket now pid) acc).1.currentPlayer = acc.1.currentPlayer ∧
       (infos.foldl (processPocket now pid) acc).1.shotPlayerId = acc.1.shotPlayerId) := by
  intro infos
  induction infos with
  | nil =>
    intro acc
    exact ⟨rfl, rfl, rfl⟩
  | cons info rest ih =>
    intro acc
    rw [List.foldl_cons]
    obtain ⟨a, b, c⟩ := ih (processPocket now pid acc info)
    exact ⟨a.trans (processPocket_players now pid acc info),
           b.trans (processPocket_currentPlayer now pid acc info),
           c.trans (processPocket_shotPlayerId now pid acc info)⟩

theorem foldPockets_spec (now : Nat) (pid : String) :
    ∀ (infos : List PocketInfo) (acc : GameState × List Ev),
      scoreOf ((infos.foldl (processPocket now pid) acc)).1 pid =
        recordBalls (scoreOf acc.1 pid) (infos.map (fun i => i.ballNumber)) ∧
      ∀ (n : Int), countScored ((infos.foldl (processPocket now pid) acc)).2 pid n =
        countScored acc.2 pid n +
          (if 1 ≤ n ∧ n ≤ 15 ∧ n ∉ scoreOf acc.1 pid ∧
              n ∈ infos.map (fun i => i.ballNumber) then 1 else 0) := by
  intro infos
  induction infos with
  | nil =>
    intro acc
    constructor
    · simp [recordBalls]
    · intro n
      simp
  | cons info rest ih =>
    intro acc
    obtain ⟨hs, he⟩ := processPocket_spec now pid acc info
    obtain ⟨ihs, ihe⟩ := ih (processPocket now pid acc info)
    constructor
    · rw [List.foldl_cons, ihs, hs, List.map_cons, recordBalls_cons]
    · intro n
      rw [List.foldl_cons, ihe n, he, countScored_append, hs]
      have key : countScored
          (if 1 ≤ info.ballNumber ∧ info.ballNumber ≤ 15 ∧
              info.ballNumber ∉ scoreOf acc.1 pid
           then [Ev.playerScored pid info.ballNumber info.pocketType now,
                 Ev.chatMessageEv (createSystemMessage now
                   ("🎯 " ++ pid ++ " 打进了 " ++ toString info.ballNumber ++ " 号球！") ("info"))]
           else []) pid n +
          (if 1 ≤ n ∧ n ≤ 15 ∧
              n ∉ (if 1 ≤ info.ballNumber ∧ info.ballNumber ≤ 15 ∧
                    info.ballNumber ∉ scoreOf acc.1 pid
                   then scoreOf acc.1 pid ++ [info.ballNumber] else scoreOf acc.1 pid) ∧
              n ∈ rest.map (fun i => i.ballNumber) then 1 else 0) =
          (if 1 ≤ n ∧ n ≤ 15 ∧ n ∉ scoreOf acc.1 pid ∧
              n ∈ (info :: rest).map (fun i => i.ballNumber) then 1 else 0) := by
        by_cases hC : 1 ≤ info.ballNumber ∧ info.ballNumber ≤ 15 ∧
            info.ballNumber ∉ scoreOf acc.1 pid
        · rw [if_pos hC, if_pos hC, countScored_delta]
          by_cases hn : info.ballNumber = n
          · subst hn
            rw [if_pos rfl]
            have h1 : ¬(1 ≤ info.ballNumber ∧ info.ballNumber ≤ 15 ∧
                info.ballNumber ∉ scoreOf acc.1 pid ++ [info.ballNumber] ∧
                info.ballNumber ∈ rest.map (fun i => i.ballNumber)) := by
              intro hc
              exact hc.2.2.1 (by simp)
            have h2 : 1 ≤ info.ballNumber ∧ info.ballNumber ≤ 15 ∧
                info.ballNumber ∉ scoreOf acc.1 pid ∧
                info.ballNumber ∈ (info :: rest).map (fun i => i.ballNumber) :=
              ⟨hC.1, hC.2.1, hC.2.2, by simp⟩
            rw [if_neg h1, if_pos h2]
          · rw [if_neg hn]
            have hiff : (1 ≤ n ∧ n ≤ 15 ∧
                n ∉ scoreOf acc.1 pid ++ [info.ballNumber] ∧
                n ∈ rest.map (fun i => i.ballNumber)) ↔
                (1 ≤ n ∧ n ≤ 15 ∧ n ∉ scoreOf acc.1 pid ∧
                 n ∈ (info :: rest).map (fun i => i.ballNumber)) := by
              constructor
              · rintro ⟨a, b, c, d⟩
                exact ⟨a, b, fun hm => c (by simp [hm]), by simp [d]⟩
              · rintro ⟨a, b, c, d⟩
                refine ⟨a, b, ?_, ?_⟩
                · intro hm
                  rcases List.mem_append.mp hm with h | h
                  · exact c h
                  · simp at h
                    exact hn h.symm
                · rcases (by simpa using d : n = info.ballNumber ∨
                      n ∈ rest.map (fun i => i.ballNumber)) with h | h
                  · exact absurd h.symm hn
                  · exact h
            rw [if_congr hiff rfl rfl]
            omega
        · rw [if_neg hC, if_neg hC]
          have hz : countScored [] pid n = 0 := rfl
          rw [hz]
          by_cases hn : info.ballNumber = n
          · subst hn
            by_cases hrest : 1 ≤ info.ballNumber ∧ info.ballNumber ≤ 15 ∧
                info.ballNumber ∉ scoreOf acc.1 pid
            · exact absurd hrest hC
            · have h1 : ¬(1 ≤ info.ballNumber ∧ info.ballNumber ≤ 15 ∧
                  info.ballNumber ∉ scoreOf acc.1 pid ∧
                  info.ballNumber ∈ rest.map (fun i => i.ballNumber)) := by
                intro hc
                exact hC ⟨hc.1, hc.2.1, hc.2.2.1⟩
              have h2 : ¬(1 ≤ info.ballNumber ∧ info.ballNumber ≤ 15 ∧
                  info.ballNumber ∉ scoreOf acc.1 pid ∧
                  info.ballNumber ∈ (info :: rest).map (fun i => i.ballNumber)) := by
                intro hc
                exact hC ⟨hc.1, hc.2.1, hc.2.2.1⟩
              rw [if_neg h1, if_neg h2]
          · have hiff : (1 ≤ n ∧ n ≤ 15 ∧ n ∉ scoreOf acc.1 pid ∧
                n ∈ rest.map (fun i => i.ballNumber)) ↔
                (1 ≤ n ∧ n ≤ 15 ∧ n ∉ scoreOf acc.1 pid ∧
                 n ∈ (info :: rest).map (fun i => i.ballNumber)) := by
              constructor
              · rintro ⟨a, b, c, d⟩
                exact ⟨a, b, c, by simp [d]⟩
              · rintro ⟨a, b, c, d⟩
                refine ⟨a, b, c, ?_⟩
                rcases (by simpa using d : n = info.ballNumber ∨
                    n ∈ rest.map (fun i => i.ballNumber)) with h | h
                · exact absurd h.symm hn
                · exact h
            rw [if_congr hiff rfl rfl]
            omega
      omega

end IncrediPool

namespace IncrediPool

theorem ballsPocketed_spec (s : GameState) (sock now : Nat) (pid : String)
    (infos : List PocketInfo) (pl : Player)
    (hget : jsGet s.players pid = some pl) (hsock : pl.socketId = sock)
    (hauth : s.currentPlayer = some pid ∨ s.shotPlayerId = some pid) :
    scoreOf (ballsPocketed s sock now pid infos).1 pid =
      recordBalls (scoreOf s pid) (infos.map (fun i => i.ballNumber)) ∧
    (∀ (n : Int), countScored (ballsPocketed s sock now pid infos).2 pid n =
      (if 1 ≤ n ∧ n ≤ 15 ∧ n ∉ scoreOf s pid ∧
          n ∈ infos.map (fun i => i.ballNumber) then 1 else 0)) ∧
    jsGet (ballsPocketed s sock now pid infos).1.players pid =
      some { pl with lastHeartbeat := now } ∧
    (ballsPocketed s sock now pid infos).1.currentPlayer = s.currentPlayer ∧
    (ballsPocketed s sock now pid infos).1.shotPlayerId = s.shotPlayerId := by
  have h1 : (ballsPocketed s sock now pid infos).1 =
      { (infos.foldl (processPocket now pid) (s, [])).1 with
        players := jsUpdate (infos.foldl (processPocket now pid) (s, [])).1.players pid
          (fun p => { p with lastHeartbeat := now }) } := by
    simp [ballsPocketed, hget, hsock, hauth]
  have h2 : (ballsPocketed s sock now pid infos).2 =
      (infos.foldl (processPocket now pid) (s, [])).2 := by
    simp [ballsPocketed, hget, hsock, hauth]
  obtain ⟨hsF, heF⟩ := foldPockets_spec now pid infos (s, [])
  obtain ⟨fp, fc, fs2⟩ := foldPockets_frame now pid infos (s, [])
  refine ⟨?_, ?_, ?_, ?_, ?_⟩
  · rw [show scoreOf (ballsPocketed s sock now pid infos).1 pid =
        scoreOf (infos.foldl (processPocket now pid) (s, [])).1 pid from by
      rw [h1]
      simp [scoreOf]]
    exact hsF
  · intro n
    rw [h2, heF n]
    simp [countScored]
  · rw [h1]
    show jsGet (jsUpdate (infos.foldl (processPocket now pid) (s, [])).1.players pid
      (fun p => { p with lastHeartbeat := now })) pid = some { pl with lastHeartbeat := now }
    rw [jsGet_jsUpdate, if_pos rfl, fp, hget]
    rfl
  · rw [h1]
    show (infos.foldl (processPocket now pid) (s, [])).1.currentPlayer = s.currentPlayer
    exact fc
  · rw [h1]
    show (infos.foldl (processPocket now pid) (s, [])).1.shotPlayerId = s.shotPlayerId
    exact fs2

/-- C5: for an authorized reporter (current holder or active shot
player, matching transport key) with a duplicate-free ledger entry,
ballsPocketed records each in-range ball at most once — reporting the
same id twice within one call or across two calls leaves exactly one
ledger entry and produces exactly one playerScored broadcast — and
ids 0 or outside 1..15 are never recorded. -/
theorem ballsPocketed_idempotent (s : GameState) (sock now now2 : Nat) (pid : String)
    (pl : Player) (n : Int) (t1 t2 : String)
    (hget : jsGet s.players pid = some pl) (hsock : pl.socketId = sock)
    (hauth : s.currentPlayer = some pid ∨ s.shotPlayerId = some pid)
    (hnodup : (scoreOf s pid).Nodup) :
    (∀ (infos : List PocketInfo),
      ((scoreOf (ballsPocketed s sock now pid infos).1 pid).Nodup ∧
       (∀ (m : Int), m ∈ scoreOf (ballsPocketed s sock now pid infos).1 pid ↔
         (m ∈ scoreOf s pid ∨
          (1 ≤ m ∧ m ≤ 15 ∧ m ∈ infos.map (fun i => i.ballNumber)))) ∧
       (∀ (m : Int), countScored (ballsPocketed s sock now pid infos).2 pid m =
         (if 1 ≤ m ∧ m ≤ 15 ∧ m ∉ scoreOf s pid ∧
             m ∈ infos.map (fun i => i.ballNumber) then 1 else 0)))) ∧
    (1 ≤ n → n ≤ 15 → n ∉ scoreOf s pid →
      ((scoreOf (ballsPocketed s sock now pid
          [{ ballNumber := n, pocketType := t1 },
           { ballNumber := n, pocketType := t2 }]).1 pid).count n = 1 ∧
       countScored (ballsPocketed s sock now pid
          [{ ballNumber := n, pocketType := t1 },
           { ballNumber := n, pocketType := t2 }]).2 pid n = 1)) ∧
    (1 ≤ n → n ≤ 15 → n ∉ scoreOf s pid →
      ((scoreOf (ballsPocketed
            (ballsPocketed s sock now pid [{ ballNumber := n, pocketType := t1 }]).1
            sock now2 pid [{ ballNumber := n, pocketType := t2 }]).1 pid).count n = 1 ∧
       countScored (ballsPocketed s sock now pid
            [{ ballNumber := n, pocketType := t1 }]).2 pid n
         + countScored (ballsPocketed
            (ballsPocketed s sock now pid [{ ballNumber := n, pocketType := t1 }]).1
            sock now2 pid [{ ballNumber := n, pocketType := t2 }]).2 pid n = 1)) ∧
    (∀ (infos : List PocketInfo) (m : Int),
      m ∈ scoreOf (ballsPocketed s sock now pid infos).1 pid →
      m ∉ scoreOf s pid → (1 ≤ m ∧ m ≤ 15)) := by
  have hgen : ∀ (infos : List PocketInfo),
      ((scoreOf (ballsPocketed s sock now pid infos).1 pid).Nodup ∧
       (∀ (m : Int), m ∈ scoreOf (ballsPocketed s sock now pid infos).1 pid ↔
         (m ∈ scoreOf s pid ∨
          (1 ≤ m ∧ m ≤ 15 ∧ m ∈ infos.map (fun i => i.ballNumber)))) ∧
       (∀ (m : Int), countScored (ballsPocketed s sock now pid infos).2 pid m =
         (if 1 ≤ m ∧ m ≤ 15 ∧ m ∉ scoreOf s pid ∧
             m ∈ infos.map (fun i => i.ballNumber) then 1 else 0))) := by
    intro infos
    obtain ⟨hs1, he1, _, _, _⟩ := ballsPocketed_spec s sock now pid infos pl hget hsock hauth
    refine ⟨?_, ?_, he1⟩
    · rw [hs1]
      exact nodup_recordBalls _ _ hnodup
    · intro m
      rw [hs1]
      exact mem_recordBalls _ _ m
  refine ⟨hgen, ?_, ?_, ?_⟩
  · intro h1 h15 hnew
    obtain ⟨hn, hm, hc⟩ := hgen [{ ballNumber := n, pocketType := t1 },
                                 { ballNumber := n, pocketType := t2 }]
    constructor
    · exact List.count_eq_one_of_mem hn ((hm n).mpr (Or.inr ⟨h1, h15, by simp⟩))
    · rw [hc n, if_pos ⟨h1, h15, hnew, by simp⟩]
  · intro h1 h15 hnew
    obtain ⟨hs1, he1, hp1, hcur1, hshot1⟩ := ballsPocketed_spec s sock now pid
      [{ ballNumber := n, pocketType := t1 }] pl hget hsock hauth
    have hget2 : jsGet (ballsPocketed s sock now pid
        [{ ballNumber := n, pocketType := t1 }]).1.players pid =
        some { pl with lastHeartbeat := now } := hp1
    have hauth2 : (ballsPocketed s sock now pid
        [{ ballNumber := n, pocketType := t1 }]).1.currentPlayer = some pid ∨
        (ballsPocketed s sock now pid
        [{ ballNumber := n, pocketType := t1 }]).1.shotPlayerId = some pid := by
      rw [hcur1, hshot1]
      exact hauth
    have hscore1 : scoreOf (ballsPocketed s sock now pid
        [{ ballNumber := n, pocketType := t1 }]).1 pid = scoreOf s pid ++ [n] := by
      rw [hs1]
      simp [recordBalls, h1, h15, hnew]
    obtain ⟨hs2, he2, _, _, _⟩ := ballsPocketed_spec
      (ballsPocketed s sock now pid [{ ballNumber := n, pocketType := t1 }]).1
      sock now2 pid [{ ballNumber := n, pocketType := t2 }]
      { pl with lastHeartbeat := now } hget2 hsock hauth2
    have hscore2 : scoreOf (ballsPocketed
        (ballsPocketed s sock now pid [{ ballNumber := n, pocketType := t1 }]).1
        sock now2 pid [{ ballNumber := n, pocketType := t2 }]).1 pid =
        scoreOf s pid ++ [n] := by
      rw [hs2, hscore1]
      simp [recordBalls]
    constructor
    · rw [hscore2]
      have hc0 : (scoreOf s pid).count n = 0 := List.count_eq_zero_of_not_mem hnew
      simp [List.count_append, hc0]
    · rw [he1 n, he2 n, hscore1]
      rw [if_pos ⟨h1, h15, hnew, by simp⟩]
      have hneg : ¬(1 ≤ n ∧ n ≤ 15 ∧ n ∉ scoreOf s pid ++ [n] ∧
          n ∈ ([{ ballNumber := n, pocketType := t2 }] : List PocketInfo).map
            (fun i => i.ballNumber)) := by
        intro hc
        exact hc.2.2.1 (by simp)
      rw [if_neg hneg]
  · intro infos m hmem hnot
    obtain ⟨_, hm, _⟩ := hgen infos
    rcases (hm m).mp hmem with h | h
    · exact absurd h hnot
    · exact ⟨h.1, h.2.1⟩

theorem ballsPocketed_idempotent_witness :
    (scoreOf (ballsPocketed demoJoin2 1 7 ("P1")
        [{ ballNumber := 3, pocketType := "corner" },
         { ballNumber := 3, pocketType := "side" }]).1 ("P1")).count 3 = 1 ∧
    countScored (ballsPocketed demoJoin2 1 7 ("P1")
        [{ ballNumber := 3, pocketType := "corner" },
         { ballNumber := 3, pocketType := "side" }]).2 ("P1") 3 = 1 := by
  have h := ballsPocketed_idempotent demoJoin2 1 7 8 ("P1")
    { socketId := 1, isHoldingCue := true, lastHeartbeat := 5, lastChatTime := 0 }
    3 ("corner") ("side") (by decide) rfl (Or.inl (by decide)) (by decide)
  exact h.2.1 (by decide) (by decide) (by decide)

end IncrediPool
